import Mathlib

/-!
# Verification of the voxelized_geometry_tools core algorithms

A shallow embedding of the core algorithms of the repository:

* `include/voxelized_geometry_tools/topology_computation.hpp`:
  connected-component labelling (`MarkConnectedComponent`,
  `ComputeConnectedComponents`), surface-vertex extraction and the
  holes/voids computation (`ComputeHolesAndVoidsInSurface`,
  `ComputeConnectivityOfSurfaceVertices`), and the static/dynamic surface
  conversions (`ExtractStaticSurface`, `ConvertToDynamicSurface`).
* `src/voxelized_geometry_tools/opencl_pointcloud_voxelization.cpp`:
  `OpenCLPointCloudVoxelizer::VoxelizePointClouds` (the device side is an
  abstract interface, as in the source).
* `src/voxelized_geometry_tools/pointcloud_voxelization.cpp`:
  `MakeBestAvailablePointCloudVoxelizer`.
* `include/voxelized_geometry_tools/collision_map.hpp`: the `CollisionMap`
  constructor and component-validity bookkeeping.

Machine integers (`int64_t`, `uint32_t`, `int32_t`, `uint8_t`) are modelled
as `ℤ`/`ℕ`; the quantities involved (component counts, hole counts, cell
counts) never approach the fixed-width bounds in the situations the theorems
below cover.  `std::unordered_map` is modelled as an association list with a
fixed iteration order (the C++ iteration order is unspecified); every
property proved below is independent of that order.  Unbounded loops are
modelled with an explicit fuel parameter; running out of fuel yields `none`
and the theorems show how much fuel suffices.
-/

/-- `GridIndex` (from `common_robotics_utilities`): a triple of signed 64-bit
integers, modelled as unbounded integers. -/
structure GridIndex where
  x : ℤ
  y : ℤ
  z : ℤ
deriving DecidableEq

/-- The six face neighbors of a cell, in the order the source enumerates them
(`topology_computation.hpp` lines 96-108): x-1, x+1, y-1, y+1, z-1, z+1. -/
def neighborsOf (c : GridIndex) : List GridIndex :=
  [⟨c.x - 1, c.y, c.z⟩, ⟨c.x + 1, c.y, c.z⟩,
   ⟨c.x, c.y - 1, c.z⟩, ⟨c.x, c.y + 1, c.z⟩,
   ⟨c.x, c.y, c.z - 1⟩, ⟨c.x, c.y, c.z + 1⟩]

/-- A `std::unordered_map<GridIndex, uint8_t>` surface map, modelled as an
association list with pairwise-distinct keys. -/
abbrev SurfaceMap := List (GridIndex × ℕ)

/-- Lookup in an association list (`unordered_map::find`). -/
def assocGet (m : SurfaceMap) (k : GridIndex) : Option ℕ :=
  (m.find? (fun e => decide (e.1 = k))).map (fun e => e.2)

/-- `ExtractStaticSurface` (`topology_computation.hpp` lines 710-728): walk the
surface map and keep the keys whose stored value equals 1. -/
def ExtractStaticSurface (rawSurface : SurfaceMap) : List GridIndex :=
  rawSurface.foldl (fun acc e => if e.2 = 1 then acc ++ [e.1] else acc) []

/-- Keyed insertion into an association-list map (`unordered_map::operator[]`
followed by assignment): overwrite if the key is present, append otherwise. -/
def assocInsert (m : SurfaceMap) (k : GridIndex) (v : ℕ) : SurfaceMap :=
  if m.any (fun e => decide (e.1 = k)) then
    m.map (fun e => if e.1 = k then (e.1, v) else e)
  else m ++ [(k, v)]

/-- `ConvertToDynamicSurface` (`topology_computation.hpp` lines 730-741):
insert every index of the static surface with value 1. -/
def ConvertToDynamicSurface (staticSurface : List GridIndex) : SurfaceMap :=
  staticSurface.foldl (fun m i => assocInsert m i 1) []

/-- Insertion of a vertex into the surface-vertex set
(`surface_vertices[vertex] = 1`): append-if-absent. -/
def insertVertex (l : List GridIndex) (v : GridIndex) : List GridIndex :=
  if v ∈ l then l else l ++ [v]

/-- The per-corner test pattern of the vertex-extraction loop
(`topology_computation.hpp` lines 443-445 and the seven analogous blocks):
`component != a || component != b || component != c` for the three queried
face-neighbor components. -/
def cornerCheck (component a b c : ℤ) : Bool :=
  decide (component ≠ a) || decide (component ≠ b) || decide (component ≠ c)

/-- The body of the surface-vertex extraction loop for one surface voxel
(`topology_computation.hpp` lines 414-521), acting on the accumulated
surface-vertex set.  Note that the source computes `xyzp1_component` from
`GridIndex(X(), Y(), Z() - 1)` (lines 420-423), i.e. it queries the `-z`
neighbor a second time instead of the `+z` neighbor; the embedding reproduces
this literally. -/
def voxelSurfaceVertices (component : ℤ) (getComponent : GridIndex → ℤ)
    (acc : List GridIndex) (cur : GridIndex) : List GridIndex :=
  let xyzm1 := getComponent ⟨cur.x, cur.y, cur.z - 1⟩
  let xyzp1 := getComponent ⟨cur.x, cur.y, cur.z - 1⟩
  let xym1z := getComponent ⟨cur.x, cur.y - 1, cur.z⟩
  let xyp1z := getComponent ⟨cur.x, cur.y + 1, cur.z⟩
  let xm1yz := getComponent ⟨cur.x - 1, cur.y, cur.z⟩
  let xp1yz := getComponent ⟨cur.x + 1, cur.y, cur.z⟩
  let acc1 := if cornerCheck component xyzm1 xym1z xm1yz
    then insertVertex acc ⟨cur.x, cur.y, cur.z⟩ else acc
  let acc2 := if cornerCheck component xyzp1 xym1z xm1yz
    then insertVertex acc1 ⟨cur.x, cur.y, cur.z + 1⟩ else acc1
  let acc3 := if cornerCheck component xyzm1 xyp1z xm1yz
    then insertVertex acc2 ⟨cur.x, cur.y + 1, cur.z⟩ else acc2
  let acc4 := if cornerCheck component xyzp1 xyp1z xm1yz
    then insertVertex acc3 ⟨cur.x, cur.y + 1, cur.z + 1⟩ else acc3
  let acc5 := if cornerCheck component xyzm1 xym1z xp1yz
    then insertVertex acc4 ⟨cur.x + 1, cur.y, cur.z⟩ else acc4
  let acc6 := if cornerCheck component xyzp1 xym1z xp1yz
    then insertVertex acc5 ⟨cur.x + 1, cur.y, cur.z + 1⟩ else acc5
  let acc7 := if cornerCheck component xyzm1 xyp1z xp1yz
    then insertVertex acc6 ⟨cur.x + 1, cur.y + 1, cur.z⟩ else acc6
  let acc8 := if cornerCheck component xyzp1 xyp1z xp1yz
    then insertVertex acc7 ⟨cur.x + 1, cur.y + 1, cur.z + 1⟩ else acc7
  acc8

/-- The surface-vertex extraction loop of `ComputeHolesAndVoidsInSurface`
(`topology_computation.hpp` lines 410-522). -/
def extractSurfaceVertices (component : ℤ) (getComponent : GridIndex → ℤ)
    (surface : List GridIndex) : List GridIndex :=
  surface.foldl (voxelSurfaceVertices component getComponent) []

/-- The spec's corner rule (spec §4.F step 1 and claim C2): the corner of voxel
`cur` at offset `(dx, dy, dz) ∈ {false, true}^3` (false = `-`, true = `+`) is
a surface vertex iff among the three voxels sharing the corner along
face-adjacent axes at least one has a component id different from `component`.
For a `+` offset along an axis the corresponding voxel is the `+` face
neighbor along that axis, for a `-` offset the `-` face neighbor. -/
def specCornerIsSurfaceVertex (component : ℤ) (getComponent : GridIndex → ℤ)
    (cur : GridIndex) (dx dy dz : Bool) : Prop :=
  component ≠ getComponent ⟨cur.x, cur.y, cur.z + (if dz then 1 else -1)⟩ ∨
  component ≠ getComponent ⟨cur.x, cur.y + (if dy then 1 else -1), cur.z⟩ ∨
  component ≠ getComponent ⟨cur.x + (if dx then 1 else -1), cur.y, cur.z⟩

/-- The corner of voxel `cur` at offset `(dx, dy, dz)`. -/
def cornerVertex (cur : GridIndex) (dx dy dz : Bool) : GridIndex :=
  ⟨cur.x + (if dx then 1 else 0), cur.y + (if dy then 1 else 0),
   cur.z + (if dz then 1 else 0)⟩

/-- The edge-exposure test pattern of the source (`topology_computation.hpp`
lines 569-580 and the five analogous blocks): exposed iff at least one of the
four surrounding voxels is outside the component, but not all four are. -/
def edgeStraddles (component a b c d : ℤ) : Bool :=
  if component ≠ a ∨ component ≠ b ∨ component ≠ c ∨ component ≠ d then
    if ¬(component ≠ a ∧ component ≠ b ∧ component ≠ c ∧ component ≠ d)
      then true else false
  else false

/-- Per-vertex edge connectivity (`topology_computation.hpp` lines 540-658):
the 8 voxels around vertex `key` are queried (the source's `p1` names carry a
`+0` offset, lines 552-567), then the six incident axis-aligned edges are
tested in source order z-, z+, y-, y+, x-, x+ with bits 1, 2, 4, 8, 16, 32.
Returns `(connectivity bits, edge_count)`. -/
def vertexEdgeInfo (component : ℤ) (getComponent : GridIndex → ℤ)
    (key : GridIndex) : ℕ × ℕ :=
  let xm1ym1zm1 := getComponent ⟨key.x - 1, key.y - 1, key.z - 1⟩
  let xm1ym1zp1 := getComponent ⟨key.x - 1, key.y - 1, key.z⟩
  let xm1yp1zm1 := getComponent ⟨key.x - 1, key.y, key.z - 1⟩
  let xm1yp1zp1 := getComponent ⟨key.x - 1, key.y, key.z⟩
  let xp1ym1zm1 := getComponent ⟨key.x, key.y - 1, key.z - 1⟩
  let xp1ym1zp1 := getComponent ⟨key.x, key.y - 1, key.z⟩
  let xp1yp1zm1 := getComponent ⟨key.x, key.y, key.z - 1⟩
  let xp1yp1zp1 := getComponent ⟨key.x, key.y, key.z⟩
  let zme := edgeStraddles component xm1ym1zm1 xm1yp1zm1 xp1ym1zm1 xp1yp1zm1
  let zpe := edgeStraddles component xm1ym1zp1 xm1yp1zp1 xp1ym1zp1 xp1yp1zp1
  let yme := edgeStraddles component xm1ym1zm1 xm1ym1zp1 xp1ym1zm1 xp1ym1zp1
  let ype := edgeStraddles component xm1yp1zm1 xm1yp1zp1 xp1yp1zm1 xp1yp1zp1
  let xme := edgeStraddles component xm1ym1zm1 xm1ym1zp1 xm1yp1zm1 xm1yp1zp1
  let xpe := edgeStraddles component xp1ym1zm1 xp1ym1zp1 xp1yp1zm1 xp1yp1zp1
  let bits := (if zme then 1 else 0) + (if zpe then 2 else 0)
    + (if yme then 4 else 0) + (if ype then 8 else 0)
    + (if xme then 16 else 0) + (if xpe then 32 else 0)
  let count := (if zme then 1 else 0) + (if zpe then 1 else 0)
    + (if yme then 1 else 0) + (if ype then 1 else 0)
    + (if xme then 1 else 0) + (if xpe then 1 else 0)
  (bits, count)

/-- The M3/M5/M6 counting and connectivity-map construction loop of
`ComputeHolesAndVoidsInSurface` (`topology_computation.hpp` lines 528-659), as
a single fold in iteration order.  Returns `((M3, M5, M6), vertex
connectivity map)`. -/
def msPassStep (component : ℤ) (getComponent : GridIndex → ℤ)
    (acc : (ℤ × ℤ × ℤ) × List (GridIndex × ℕ)) (key : GridIndex) :
    (ℤ × ℤ × ℤ) × List (GridIndex × ℕ) :=
  let info := vertexEdgeInfo component getComponent key
  let ms := acc.1
  let ms' := if info.2 = 3 then (ms.1 + 1, ms.2.1, ms.2.2)
    else if info.2 = 5 then (ms.1, ms.2.1 + 1, ms.2.2)
    else if info.2 = 6 then (ms.1, ms.2.1, ms.2.2 + 1)
    else ms
  (ms', acc.2 ++ [(key, info.1)])

def surfaceVertexPass (component : ℤ) (getComponent : GridIndex → ℤ)
    (verts : List GridIndex) : (ℤ × ℤ × ℤ) × List (GridIndex × ℕ) :=
  verts.foldl (msPassStep component getComponent) ((0, 0, 0), [])

/-- The neighbor vertices tried by `ComputeConnectivityOfSurfaceVertices` in
source order (`topology_computation.hpp` lines 246-323), paired with the
connectivity bit that guards each: 1 ↦ z-1, 2 ↦ z+1, 4 ↦ y-1, 8 ↦ y+1,
16 ↦ x-1, 32 ↦ x+1. -/
def connectivityTargets (cur : GridIndex) : List (ℕ × GridIndex) :=
  [(1, ⟨cur.x, cur.y, cur.z - 1⟩), (2, ⟨cur.x, cur.y, cur.z + 1⟩),
   (4, ⟨cur.x, cur.y - 1, cur.z⟩), (8, ⟨cur.x, cur.y + 1, cur.z⟩),
   (16, ⟨cur.x - 1, cur.y, cur.z⟩), (32, ⟨cur.x + 1, cur.y, cur.z⟩)]

/-- The inner BFS of `ComputeConnectivityOfSurfaceVertices`
(`topology_computation.hpp` lines 234-324).  State: queue, queued hashtable,
vertex components table, processed-vertex count.  `none` models both fuel
exhaustion and the `surface_vertex_connectivity.at(...)` call throwing when a
connectivity bit points outside the map (line 244). -/
def vertexBFS (conn : List (GridIndex × ℕ)) (cc : ℤ) :
    ℕ → List GridIndex → (GridIndex → Bool) → (GridIndex → ℤ) → ℤ →
    Option ((GridIndex → ℤ) × ℤ)
  | _, [], _, vc, cpv => some (vc, cpv)
  | 0, _ :: _, _, _, _ => none
  | fuel + 1, cur :: rest, queuedTable, vc, cpv =>
    let cpv' := cpv + 1
    let vc' := fun j => if j = cur then cc else vc j
    match assocGet conn cur with
    | none => none
    | some connectivity =>
      let s := (connectivityTargets cur).foldl
        (fun (st : List GridIndex × (GridIndex → Bool)) mt =>
          if connectivity &&& mt.1 ≠ 0 then
            if st.2 mt.2 then st
            else (st.1 ++ [mt.2], fun j => if j = mt.2 then true else st.2 j)
          else st) (rest, queuedTable)
      vertexBFS conn cc fuel s.1 s.2 vc' cpv'

/-- The outer loop of `ComputeConnectivityOfSurfaceVertices`
(`topology_computation.hpp` lines 203-332): iterate over the vertices, start a
new component BFS for each unmarked vertex, and break early once every vertex
has been processed. -/
def connectivityLoop (conn : List (GridIndex × ℕ)) (fuel : ℕ) :
    List (GridIndex × ℕ) → (GridIndex → ℤ) → ℤ → ℤ → Option ℤ
  | [], _, _, cc => some cc
  | e :: rest, vc, processed, cc =>
    if vc e.1 > 0 then connectivityLoop conn fuel rest vc processed cc
    else
      let cc' := cc + 1
      match vertexBFS conn cc' fuel [e.1] (fun j => decide (j = e.1)) vc 0 with
      | none => none
      | some r =>
        let processed' := processed + r.2
        if processed' = (conn.length : ℤ) then some cc'
        else connectivityLoop conn fuel rest r.1 processed' cc'

/-- `ComputeConnectivityOfSurfaceVertices` (`topology_computation.hpp` lines
188-334): number of connected components of the surface-vertex graph. -/
def ComputeConnectivityOfSurfaceVertices (fuel : ℕ)
    (surfaceVertexConnectivity : List (GridIndex × ℕ)) : Option ℤ :=
  connectivityLoop surfaceVertexConnectivity fuel surfaceVertexConnectivity
    (fun _ => 0) 0 0

/-- `NumberOfHolesAndVoids` (`topology_computation.hpp` lines 21-46); the
`int32_t` fields are modelled as `ℤ`. -/
structure NumberOfHolesAndVoids where
  numHoles : ℤ
  numVoids : ℤ
deriving DecidableEq

/-- Failure modes of the embedded topology computation: `didNotReturn` models
fuel exhaustion or the `unordered_map::at` throw inside the surface-vertex
BFS; `invalidArgument` models `std::invalid_argument`. -/
inductive TopoError where
  | didNotReturn
  | invalidArgument (msg : String)
deriving DecidableEq

/-- The checked `NumberOfHolesAndVoids` constructor (`topology_computation.hpp`
lines 30-41): rejects negative hole or void counts. -/
def mkNumberOfHolesAndVoids (numHoles numVoids : ℤ) :
    Except TopoError NumberOfHolesAndVoids :=
  if numHoles < 0 then .error (.invalidArgument "num_holes_ < 0")
  else if numVoids < 0 then .error (.invalidArgument "num_voids_ < 0")
  else .ok ⟨numHoles, numVoids⟩

/-- `ComputeHolesAndVoidsInSurface` (`topology_computation.hpp` lines 366-676):
extract surface vertices, count exposed edges per vertex (M3/M5/M6 and the
connectivity map), count surfaces by BFS, then combine by the Chen-Rong
formula (line 666, C++ `int` division truncates toward zero, hence
`Int.div`). -/
def ComputeHolesAndVoidsInSurface (fuel : ℕ) (component : ℤ)
    (surface : List GridIndex) (getComponent : GridIndex → ℤ) :
    Except TopoError NumberOfHolesAndVoids :=
  let surfaceVertices := extractSurfaceVertices component getComponent surface
  let pass := surfaceVertexPass component getComponent surfaceVertices
  match ComputeConnectivityOfSurfaceVertices fuel pass.2 with
  | none => .error .didNotReturn
  | some numberOfSurfaces =>
    let numberOfVoids := numberOfSurfaces - 1
    let rawNumberOfHoles : ℤ :=
      1 + Int.tdiv (pass.1.2.1 + 2 * pass.1.2.2 - pass.1.1) 8
    let numberOfHoles := rawNumberOfHoles + numberOfVoids
    mkNumberOfHolesAndVoids numberOfHoles numberOfVoids

/-- The four voxels surrounding each of the six axis-aligned edges incident to
vertex `key`, in the order z-, z+, y-, y+, x-, x+. -/
def edgeQuads (key : GridIndex) : List (List GridIndex) :=
  [[⟨key.x - 1, key.y - 1, key.z - 1⟩, ⟨key.x - 1, key.y, key.z - 1⟩,
    ⟨key.x, key.y - 1, key.z - 1⟩, ⟨key.x, key.y, key.z - 1⟩],
   [⟨key.x - 1, key.y - 1, key.z⟩, ⟨key.x - 1, key.y, key.z⟩,
    ⟨key.x, key.y - 1, key.z⟩, ⟨key.x, key.y, key.z⟩],
   [⟨key.x - 1, key.y - 1, key.z - 1⟩, ⟨key.x - 1, key.y - 1, key.z⟩,
    ⟨key.x, key.y - 1, key.z - 1⟩, ⟨key.x, key.y - 1, key.z⟩],
   [⟨key.x - 1, key.y, key.z - 1⟩, ⟨key.x - 1, key.y, key.z⟩,
    ⟨key.x, key.y, key.z - 1⟩, ⟨key.x, key.y, key.z⟩],
   [⟨key.x - 1, key.y - 1, key.z - 1⟩, ⟨key.x - 1, key.y - 1, key.z⟩,
    ⟨key.x - 1, key.y, key.z - 1⟩, ⟨key.x - 1, key.y, key.z⟩],
   [⟨key.x, key.y - 1, key.z - 1⟩, ⟨key.x, key.y - 1, key.z⟩,
    ⟨key.x, key.y, key.z - 1⟩, ⟨key.x, key.y, key.z⟩]]

/-- Spec wording (§4.F step 2, claim C4): an edge is exposed iff its four
surrounding voxels are not uniformly in the component and not uniformly
outside it. -/
def specEdgeExposed (component : ℤ) (getComponent : GridIndex → ℤ)
    (quad : List GridIndex) : Prop :=
  (∃ v ∈ quad, getComponent v ≠ component) ∧
  (∃ v ∈ quad, getComponent v = component)

instance (component : ℤ) (getComponent : GridIndex → ℤ)
    (quad : List GridIndex) :
    Decidable (specEdgeExposed component getComponent quad) := by
  unfold specEdgeExposed; infer_instance

/-- The declarative (spec-worded) exposed-edge count of a surface vertex,
used to compare the source's incremental `edge_count` against the claim. -/
def specExposedEdgeCount (component : ℤ) (getComponent : GridIndex → ℤ)
    (key : GridIndex) : ℕ :=
  ((edgeQuads key).filter
    (fun q => decide (specEdgeExposed component getComponent q))).length

/-- In-bounds predicate for a grid with `nx * ny * nz` cells
(`GridIndex` validity, spec §3). -/
def inBounds (nx ny nz : ℕ) (i : GridIndex) : Prop :=
  0 ≤ i.x ∧ i.x < (nx : ℤ) ∧ 0 ≤ i.y ∧ i.y < (ny : ℤ) ∧
  0 ≤ i.z ∧ i.z < (nz : ℤ)

instance (nx ny nz : ℕ) (i : GridIndex) : Decidable (inBounds nx ny nz i) := by
  unfold inBounds; infer_instance

/-- The neighbor-enqueueing step of the `MarkConnectedComponent` BFS loop
(`topology_computation.hpp` lines 109-123): enqueue `nb` iff its component is
still 0 (in the store after marking `cur`), the connectivity predicate accepts
the pair, and it has not been queued before.  State: (queued hashtable,
working queue). -/
def markStep (areConnected : GridIndex → GridIndex → Bool)
    (comp' : GridIndex → ℕ) (cur : GridIndex)
    (st : (GridIndex → Bool) × List GridIndex) (nb : GridIndex) :
    (GridIndex → Bool) × List GridIndex :=
  if comp' nb = 0 then
    if areConnected cur nb then
      if st.1 nb then st
      else (fun j => if j = nb then true else st.1 j, st.2 ++ [nb])
    else st
  else st

/-- The BFS loop of `MarkConnectedComponent` (`topology_computation.hpp` lines
84-124).  State: working queue, queued hashtable, component store (the
coherent `get_component_fn`/`mark_component_fn` pair is modelled as a single
total map `GridIndex → ℕ`).  The marked-cells counter of the source is
initialized to 0 and never incremented (line 84, line 125), so the loop's
return value is the component store paired with the literal constant 0. -/
def markLoop (areConnected : GridIndex → GridIndex → Bool) (k : ℕ) :
    ℕ → List GridIndex → (GridIndex → Bool) → (GridIndex → ℕ) →
    Option ((GridIndex → ℕ) × ℤ)
  | _, [], _, comp => some (comp, 0)
  | 0, _ :: _, _, _ => none
  | fuel + 1, cur :: rest, queuedTable, comp =>
    let comp' := fun j => if j = cur then k else comp j
    let s := (neighborsOf cur).foldl (markStep areConnected comp' cur)
      (queuedTable, rest)
    markLoop areConnected k fuel s.2 s.1 comp'

/-- `MarkConnectedComponent` (`topology_computation.hpp` lines 57-126):
enqueue the start index and run the BFS loop. -/
def MarkConnectedComponent (areConnected : GridIndex → GridIndex → Bool)
    (fuel : ℕ) (comp : GridIndex → ℕ) (startIndex : GridIndex)
    (connectedComponent : ℕ) : Option ((GridIndex → ℕ) × ℤ) :=
  markLoop areConnected connectedComponent fuel [startIndex]
    (fun j => decide (j = startIndex)) comp

/-- The grid traversal order of `ComputeConnectedComponents` (x outermost,
then y, then z; `topology_computation.hpp` lines 139-149 and 157-163). -/
def sweepIndices (nx ny nz : ℕ) : List GridIndex :=
  (List.range nx).flatMap (fun xi =>
    (List.range ny).flatMap (fun yi =>
      (List.range nz).map (fun zi =>
        ⟨Int.ofNat xi, Int.ofNat yi, Int.ofNat zi⟩)))

/-- The reset phase of `ComputeConnectedComponents` (lines 139-149): write
component 0 into every in-bounds cell. -/
def resetComponents (nx ny nz : ℕ) (comp : GridIndex → ℕ) : GridIndex → ℕ :=
  (sweepIndices nx ny nz).foldl
    (fun c i => fun j => if j = i then 0 else c j) comp

/-- The sweep phase of `ComputeConnectedComponents` (lines 150-185): for each
cell still carrying component 0, assign the next id and flood fill; add the
returned marked-cell count and short-circuit when it reaches the total cell
count. -/
def sweepLoop (areConnected : GridIndex → GridIndex → Bool) (fuel : ℕ)
    (totalCells : ℤ) :
    List GridIndex → (GridIndex → ℕ) → ℤ → ℕ → Option ((GridIndex → ℕ) × ℕ)
  | [], comp, _, connectedComponents => some (comp, connectedComponents)
  | idx :: rest, comp, markedCells, connectedComponents =>
    if comp idx = 0 then
      let cc' := connectedComponents + 1
      match MarkConnectedComponent areConnected fuel comp idx cc' with
      | none => none
      | some r =>
        let markedCells' := markedCells + r.2
        if markedCells' = totalCells then some (r.1, cc')
        else sweepLoop areConnected fuel totalCells rest r.1 markedCells' cc'
    else sweepLoop areConnected fuel totalCells rest comp markedCells
      connectedComponents

/-- `ComputeConnectedComponents` (`topology_computation.hpp` lines 128-186):
reset, then sweep.  Returns the final component store and the component
count. -/
def ComputeConnectedComponents (nx ny nz : ℕ)
    (areConnected : GridIndex → GridIndex → Bool) (comp : GridIndex → ℕ)
    (fuel : ℕ) : Option ((GridIndex → ℕ) × ℕ) :=
  sweepLoop areConnected fuel ((nx : ℤ) * (ny : ℤ) * (nz : ℤ))
    (sweepIndices nx ny nz) (resetComponents nx ny nz comp) 0 0

/-- A connectivity edge: `b` is one of the six face neighbors of `a` and the
caller's predicate accepts the pair. -/
def Edge (areConnected : GridIndex → GridIndex → Bool) (a b : GridIndex) :
    Prop :=
  b ∈ neighborsOf a ∧ areConnected a b = true

/-- The claim's path relation: a face-connected path whose every consecutive
pair satisfies `are_connected`. -/
def Conn (areConnected : GridIndex → GridIndex → Bool) (a b : GridIndex) :
    Prop :=
  Relation.ReflTransGen (Edge areConnected) a b

/-- BFS reachability from `s` through cells whose component (in the store at
call time) is 0: the set of cells one run of `MarkConnectedComponent` marks. -/
def Reaches (areConnected : GridIndex → GridIndex → Bool)
    (base : GridIndex → ℕ) (s j : GridIndex) : Prop :=
  Relation.ReflTransGen
    (fun a b => Edge areConnected a b ∧ base b = 0) s j

/-- Number of in-bounds cells a component store marks with a nonzero id. -/
def countMarkedCells (nx ny nz : ℕ) (comp : GridIndex → ℕ) : ℕ :=
  (sweepIndices nx ny nz).countP (fun i => decide (comp i ≠ 0))

/-- The always-false connectivity predicate (each cell is its own
component). -/
def noConn : GridIndex → GridIndex → Bool := fun _ _ => false

/-- Connectivity predicate used to exercise the labeller: connect any two
in-bounds cells of a 2 x 1 x 1 grid. -/
def allConn211 : GridIndex → GridIndex → Bool := fun a b =>
  decide (inBounds 2 1 1 a) && decide (inBounds 2 1 1 b)

/-- Edge list of the counterexample to the unrestricted claim C1: a chain
from in-bounds (0,0,0) to in-bounds (1,0,0) through the out-of-bounds cells
(0,-1,0) and (1,-1,0). -/
def cexEdges : List (GridIndex × GridIndex) :=
  [(⟨0, 0, 0⟩, ⟨0, -1, 0⟩), (⟨0, -1, 0⟩, ⟨1, -1, 0⟩),
   (⟨1, -1, 0⟩, ⟨1, 0, 0⟩)]

/-- The counterexample's symmetric connectivity predicate. -/
def cexAreConnected : GridIndex → GridIndex → Bool := fun a b =>
  decide ((a, b) ∈ cexEdges ∨ (b, a) ∈ cexEdges)

/-- The counterexample's pre-call component store: the two out-of-bounds chain
cells already carry the nonzero component value 5 (the reset phase only
clears in-bounds cells), everything else carries 0. -/
def cexInit : GridIndex → ℕ := fun i =>
  if i = ⟨0, -1, 0⟩ ∨ i = ⟨1, -1, 0⟩ then 5 else 0

/-- Error kinds surfaced by the voxelization entry points: `std::invalid_argument`
and `std::runtime_error`. -/
inductive VoxError where
  | invalidArgument (msg : String)
  | runtimeError (msg : String)
deriving DecidableEq

/-- Device operations performed by `OpenCLPointCloudVoxelizer::VoxelizePointClouds`
through its helper interface, in call order. -/
inductive DeviceOp where
  | prepareTrackingGrids
  | raycastPoints
  | prepareFilterGrid
  | filterTrackingGrids
  | retrieveFilteredGrid
  | cleanupAllocatedMemory
deriving DecidableEq

/-- `GridSizes` (from `common_robotics_utilities`): cell extents and counts.
The `double` extents are modelled as rationals (no rounding is involved in
any property below). -/
structure GridSizesModel where
  cellXSize : ℚ
  cellYSize : ℚ
  cellZSize : ℚ
  numXCells : ℤ
  numYCells : ℤ
  numZCells : ℤ
deriving DecidableEq

/-- Modelled from the spec: `GridSizes::UniformCellSize()` of the external
`common_robotics_utilities` library, per spec §3: "The core requires uniform
cells: `cx == cy == cz`". -/
def GridSizesModel.uniformCellSize (s : GridSizesModel) : Bool :=
  decide (s.cellXSize = s.cellYSize) && decide (s.cellYSize = s.cellZSize)

/-- Total cell count of a sizing. -/
def GridSizesModel.totalCells (s : GridSizesModel) : ℤ :=
  s.numXCells * s.numYCells * s.numZCells

/-- `CollisionCell` (`collision_map.hpp` lines 29-64): an occupancy value
(`float`, modelled as `ℚ`; only copied, never computed with, in the
properties below) and a component id (`uint32_t`). -/
structure CollisionCellModel where
  occupancy : ℚ
  component : ℕ
deriving DecidableEq

/-- An origin transform (`Eigen::Isometry3d`): only propagated and compared,
never applied, in the properties below, so it is modelled opaquely as its
list of coefficients. -/
abbrev PoseModel := List ℚ

/-- `CollisionMap` (`collision_map.hpp` lines 77-306): the `VoxelGridBase`
payload (origin transform, sizes, default/out-of-bounds cells, dense data)
plus the frame string, component count and components-valid flag.
`sizes = none` models a default-constructed (uninitialized) map. -/
structure CollisionMapModel where
  originTransform : PoseModel
  frame : String
  sizes : Option GridSizesModel
  defaultCell : CollisionCellModel
  oobCell : CollisionCellModel
  data : List CollisionCellModel
  numberOfComponents : ℕ
  componentsValid : Bool
deriving DecidableEq

/-- `CollisionMap::GetNumConnectedComponents` (`collision_map.hpp` lines
193-205): the component count if components are valid, otherwise an empty
`OwningMaybe`. -/
def CollisionMapModel.numConnectedComponents (m : CollisionMapModel) :
    Option ℕ :=
  if m.componentsValid then some m.numberOfComponents else none

/-- The `CollisionMap` constructor with explicit origin transform
(`collision_map.hpp` lines 141-155): the `VoxelGridBase` base constructor
(external library: stores the parameters and fills the backing sequence with
the default cell) followed by the uniform-cell-size check, which throws
`std::invalid_argument` on failure. -/
def mkCollisionMap (originTransform : PoseModel) (frame : String)
    (sizes : GridSizesModel) (defaultValue oobValue : CollisionCellModel) :
    Except VoxError CollisionMapModel :=
  let base : CollisionMapModel :=
    { originTransform := originTransform, frame := frame,
      sizes := some sizes, defaultCell := defaultValue, oobCell := oobValue,
      data := List.replicate sizes.totalCells.toNat defaultValue,
      numberOfComponents := 0, componentsValid := false }
  if sizes.uniformCellSize then .ok base
  else .error (.invalidArgument "Collision map cannot have non-uniform cell sizes")

/-- The step-size guard of `OpenCLPointCloudVoxelizer::VoxelizePointClouds`
(`opencl_pointcloud_voxelization.cpp` line 39):
`step_size_multiplier > 1.0 || step_size_multiplier <= 0.0`. -/
def stepSizeMultiplierInvalid (stepSizeMultiplier : ℚ) : Bool :=
  decide (stepSizeMultiplier > 1) || decide (stepSizeMultiplier ≤ 0)

/-- The device helper interface used by the OpenCL voxelizer
(`opencl_voxelization_helpers.h`, external to the visible sources): only the
host-observable behavior is modelled — availability, the tracking-grid
offsets returned by allocation, filter-grid allocation success, and the cell
data the filtered-grid retrieval writes back. -/
structure DeviceInterfaceModel where
  isAvailable : Bool
  prepareTrackingGrids : ℤ → ℕ → List ℤ
  prepareFilterGridOk : Bool
  retrieveFilteredGrid : ℤ → List CollisionCellModel → List CollisionCellModel

/-- A point cloud: pose and points (only its size is observable host-side in
the embedding). -/
structure PointCloudModel where
  pose : PoseModel
  points : List (ℚ × ℚ × ℚ)

/-- `PointCloudVoxelizationFilterOptions`. -/
structure FilterOptionsModel where
  percentSeenFree : ℚ
  outlierPointsThreshold : ℤ
  numCamerasSeenFree : ℤ

/-- Outcome of a `VoxelizePointClouds` call: the state of the static
environment after the call (the source takes it by const reference and the
embedding threads it through unchanged), the device operations performed, and
the result or exception. -/
structure VoxOutcome where
  staticEnvironmentAfter : CollisionMapModel
  deviceLog : List DeviceOp
  result : Except VoxError CollisionMapModel

/-- `OpenCLPointCloudVoxelizer::VoxelizePointClouds`
(`opencl_pointcloud_voxelization.cpp` lines 30-131).  The copy
`CollisionMap filtered_grid = static_environment` keeps the grid parameters
and frame; `GetMutableRawData()` invokes `OnMutableRawAccess()`, which
(modelled from the spec, §4.C "both hooks set `components_valid = false`";
the override is declared at `collision_map.hpp` lines 112-113 with comment
"Invalidate connected components on mutable raw access") clears the
components-valid flag before the device writes the filtered cells. -/
def openclVoxelizePointClouds (dev : DeviceInterfaceModel)
    (staticEnvironment : CollisionMapModel) (stepSizeMultiplier : ℚ)
    (filterOptions : FilterOptionsModel)
    (pointclouds : List PointCloudModel) : VoxOutcome :=
  match staticEnvironment.sizes with
  | none =>
    ⟨staticEnvironment, [],
     .error (.invalidArgument "!static_environment.IsInitialized()")⟩
  | some sizes =>
    if stepSizeMultiplierInvalid stepSizeMultiplier then
      ⟨staticEnvironment, [],
       .error (.invalidArgument "step_size_multiplier is not in (0, 1]")⟩
    else if dev.isAvailable then
      let totalCells := sizes.totalCells
      let offsets := dev.prepareTrackingGrids totalCells pointclouds.length
      if offsets.length ≠ pointclouds.length then
        ⟨staticEnvironment, [.prepareTrackingGrids],
         .error (.runtimeError "Failed to allocate device tracking grid")⟩
      else
        let raycastLog := [DeviceOp.prepareTrackingGrids]
          ++ pointclouds.map (fun _ => DeviceOp.raycastPoints)
        if dev.prepareFilterGridOk then
          let filteredGrid : CollisionMapModel :=
            { staticEnvironment with
                componentsValid := false,
                data := dev.retrieveFilteredGrid totalCells
                  staticEnvironment.data }
          ⟨staticEnvironment,
           raycastLog ++ [.prepareFilterGrid, .filterTrackingGrids,
             .retrieveFilteredGrid, .cleanupAllocatedMemory],
           .ok filteredGrid⟩
        else
          ⟨staticEnvironment, raycastLog ++ [.prepareFilterGrid],
           .error (.runtimeError "Failed to allocate device filter grid")⟩
    else
      ⟨staticEnvironment, [],
       .error (.runtimeError "OpenCLPointCloudVoxelizer not available")⟩

/-- `MakeBestAvailablePointCloudVoxelizer`
(`pointcloud_voxelization.cpp` lines 78-117): try the CUDA constructor, fall
back to OpenCL, fall back to CPU, and raise "No PointCloud Voxelizers
available" when the CPU constructor also fails.  The three constructions are
passed in as their outcomes (`.error` models the constructor throwing
`std::runtime_error`, the failure mode of the visible OpenCL constructor,
lines 21-28 of `opencl_pointcloud_voxelization.cpp`, and the one the spec
describes for initialization failure). -/
def MakeBestAvailablePointCloudVoxelizer {Voxelizer : Type}
    (cudaCtor openclCtor cpuCtor : Except String Voxelizer) :
    Except String Voxelizer :=
  match cudaCtor with
  | .ok v => .ok v
  | .error _ =>
    match openclCtor with
    | .ok v => .ok v
    | .error _ =>
      match cpuCtor with
      | .ok v => .ok v
      | .error _ => .error "No PointCloud Voxelizers available"

/-- Whether an `Except` outcome is a success. -/
def exceptOk {ε α : Type} : Except ε α → Bool
  | .ok _ => true
  | .error _ => false

/-- The in-bounds indices of a grid as a finite set. -/
def inBoundsFinset (nx ny nz : ℕ) : Finset GridIndex :=
  (sweepIndices nx ny nz).toFinset

/-- The number of surface vertices (of the code's vertex list `verts`) whose
spec-worded exposed-edge count equals `k`; the claim's `M3`/`M5`/`M6` (as the
`int32_t` value the source accumulates, hence `ℤ`). -/
def specVertexCountWithEdges (component : ℤ) (getComponent : GridIndex → ℤ)
    (verts : List GridIndex) (k : ℕ) : ℤ :=
  (verts.countP
    (fun v => decide (specExposedEdgeCount component getComponent v = k)) : ℤ)

/-- Component map exhibiting the mis-queried `+z` neighbor: the `+z` face
neighbor of voxel (0,0,0) is outside component 1, everything else is in it. -/
def plusZGet : GridIndex → ℤ := fun i => if i = ⟨0, 0, 1⟩ then 0 else 1

/-- Component map of a single filled voxel at the origin (component 1 there,
component 0 everywhere else). -/
def singleVoxelGet : GridIndex → ℤ := fun i => if i = ⟨0, 0, 0⟩ then 1 else 0

/-- A concrete all-ones surface map used to exercise the static/dynamic
surface conversions. -/
def demoSurfaceMap : SurfaceMap := [(⟨0, 0, 0⟩, 1), (⟨1, 2, 3⟩, 1)]

/-- A concrete device interface on which every device operation succeeds and
the filtered grid comes back unchanged. -/
def demoDevice : DeviceInterfaceModel :=
  { isAvailable := true,
    prepareTrackingGrids := fun _ n => List.replicate n 0,
    prepareFilterGridOk := true,
    retrieveFilteredGrid := fun _ d => d }

/-- A concrete initialized static environment with valid components. -/
def demoEnvironment : CollisionMapModel :=
  { originTransform := [1, 0, 0, 0, 0, 1, 0, 0, 0, 0, 1, 0],
    frame := "world",
    sizes := some ⟨1, 1, 1, 2, 2, 2⟩,
    defaultCell := ⟨0, 0⟩, oobCell := ⟨0, 0⟩,
    data := List.replicate 8 ⟨0, 0⟩,
    numberOfComponents := 1, componentsValid := true }

/-- The default filter options of spec §8 scenario S6. -/
def demoFilterOptions : FilterOptionsModel := ⟨1, 0, 1⟩

/-- The expected output map of the demo voxelization call. -/
def demoFilteredGrid : CollisionMapModel :=
  { demoEnvironment with componentsValid := false }

instance (component : ℤ) (getComponent : GridIndex → ℤ) (cur : GridIndex)
    (dx dy dz : Bool) :
    Decidable (specCornerIsSurfaceVertex component getComponent cur dx dy dz) := by
  unfold specCornerIsSurfaceVertex; infer_instance

instance {ε α : Type} [DecidableEq ε] [DecidableEq α] :
    DecidableEq (Except ε α) := fun x y =>
  match x, y with
  | .ok a, .ok b => decidable_of_iff (a = b) (by simp)
  | .error e, .error f => decidable_of_iff (e = f) (by simp)
  | .ok _, .error _ => isFalse (by simp)
  | .error _, .ok _ => isFalse (by simp)

/-! ## Theorems -/

theorem extractStaticSurface_foldl (m : SurfaceMap) (acc : List GridIndex) :
    m.foldl (fun acc e => if e.2 = 1 then acc ++ [e.1] else acc) acc
      = acc ++ (m.filter (fun e => decide (e.2 = 1))).map Prod.fst := by
  induction m generalizing acc with
  | nil => simp
  | cons e rest ih =>
    by_cases h : e.2 = 1 <;> simp [h, ih, List.filter_cons]

theorem ExtractStaticSurface_eq (m : SurfaceMap) :
    ExtractStaticSurface m
      = (m.filter (fun e => decide (e.2 = 1))).map Prod.fst := by
  simpa using extractStaticSurface_foldl m []

theorem convertToDynamicSurface_foldl (l : List GridIndex) :
    ∀ acc : SurfaceMap,
    (∀ k ∈ l, acc.any (fun e => decide (e.1 = k)) = false) → l.Nodup →
    l.foldl (fun m i => assocInsert m i 1) acc
      = acc ++ l.map (fun k => (k, 1)) := by
  induction l with
  | nil => intro acc _ _; simp
  | cons k rest ih =>
    intro acc hdisj hnd
    have hk : acc.any (fun e => decide (e.1 = k)) = false := hdisj k (by simp)
    have step : assocInsert acc k 1 = acc ++ [(k, 1)] := by
      unfold assocInsert; rw [hk]; simp
    rw [List.foldl_cons, step, ih]
    · simp
    · intro k' hk'
      have h1 := hdisj k' (by simp [hk'])
      have hne : k ≠ k' := by
        rintro rfl; exact (List.nodup_cons.mp hnd).1 hk'
      simp [List.any_append, h1, hne]
    · exact (List.nodup_cons.mp hnd).2

/-- C10: for surface maps whose stored values are all 1,
`ConvertToDynamicSurface (ExtractStaticSurface m)` gives back `m`; and
`ExtractStaticSurface` returns exactly the keys whose stored value equals 1
(entries with any other value are dropped). -/
theorem extract_convert_surface_round_trip :
    (∀ m : SurfaceMap, (∀ e ∈ m, e.2 = 1) → (m.map Prod.fst).Nodup →
      ConvertToDynamicSurface (ExtractStaticSurface m) = m) ∧
    (∀ (m : SurfaceMap) (x : GridIndex),
      x ∈ ExtractStaticSurface m ↔ (x, 1) ∈ m) := by
  constructor
  · intro m hv hnd
    have hfix : m.filter (fun e => decide (e.2 = 1)) = m :=
      List.filter_eq_self.mpr (fun e he => by simp [hv e he])
    have h1 : ExtractStaticSurface m = m.map Prod.fst := by
      rw [ExtractStaticSurface_eq, hfix]
    rw [h1]
    unfold ConvertToDynamicSurface
    rw [convertToDynamicSurface_foldl _ [] (by simp) hnd]
    simp only [List.nil_append, List.map_map]
    have : ∀ e ∈ m, (fun k => (k, 1)) (Prod.fst e) = id e := by
      intro e he
      have := hv e he
      simp only [Function.comp, id]
      exact Prod.ext rfl (by simpa using (hv e he).symm)
    calc m.map ((fun k => (k, 1)) ∘ Prod.fst)
        = m.map id := List.map_congr_left (by simpa using this)
      _ = m := List.map_id m
  · intro m x
    rw [ExtractStaticSurface_eq]
    simp only [List.mem_map, List.mem_filter, decide_eq_true_eq]
    constructor
    · rintro ⟨e, ⟨he, h1⟩, rfl⟩
      have : e = (e.1, 1) := Prod.ext rfl h1
      exact this ▸ he
    · intro hx
      exact ⟨(x, 1), ⟨hx, rfl⟩, rfl⟩

theorem extract_convert_surface_round_trip_witness :
    (∀ e ∈ demoSurfaceMap, e.2 = 1) ∧ (demoSurfaceMap.map Prod.fst).Nodup ∧
    ConvertToDynamicSurface (ExtractStaticSurface demoSurfaceMap)
      = demoSurfaceMap ∧
    ((⟨0, 0, 0⟩ : GridIndex) ∈ ExtractStaticSurface demoSurfaceMap ↔
      ((⟨0, 0, 0⟩ : GridIndex), 1) ∈ demoSurfaceMap) :=
  ⟨by decide, by decide,
   extract_convert_surface_round_trip.1 demoSurfaceMap (by decide) (by decide),
   extract_convert_surface_round_trip.2 demoSurfaceMap ⟨0, 0, 0⟩⟩

/-- C9: on an empty surface the surface-vertex graph has zero connected
components, so `ComputeHolesAndVoidsInSurface` computes void count
`0 - 1 = -1` and the `NumberOfHolesAndVoids` constructor rejects it with
`std::invalid_argument`; and every successfully constructed
`NumberOfHolesAndVoids` has both counts nonnegative. -/
theorem holesAndVoids_empty_surface_rejected :
    (∀ (fuel : ℕ) (component : ℤ) (getComponent : GridIndex → ℤ),
      ComputeHolesAndVoidsInSurface fuel component [] getComponent
        = .error (.invalidArgument "num_voids_ < 0")) ∧
    (∀ fuel : ℕ, ComputeConnectivityOfSurfaceVertices fuel [] = some 0) ∧
    (∀ (numHoles numVoids : ℤ) (r : NumberOfHolesAndVoids),
      mkNumberOfHolesAndVoids numHoles numVoids = .ok r →
      0 ≤ r.numHoles ∧ 0 ≤ r.numVoids) := by
  refine ⟨fun fuel component getComponent => rfl, fun fuel => rfl, ?_⟩
  intro numHoles numVoids r hr
  unfold mkNumberOfHolesAndVoids at hr
  split_ifs at hr with h1 h2
  injection hr with heq
  subst heq
  exact ⟨le_of_not_lt h1, le_of_not_lt h2⟩

theorem holesAndVoids_empty_surface_rejected_witness :
    mkNumberOfHolesAndVoids 2 3 = .ok ⟨2, 3⟩ ∧
    0 ≤ (⟨2, 3⟩ : NumberOfHolesAndVoids).numHoles ∧
    0 ≤ (⟨2, 3⟩ : NumberOfHolesAndVoids).numVoids :=
  ⟨by decide,
   holesAndVoids_empty_surface_rejected.2.2 2 3 ⟨2, 3⟩ (by decide)⟩

/-- C7: constructing a `CollisionMap` fails with `std::invalid_argument`
exactly when the grid sizes do not have uniform cell sizes, and otherwise
succeeds with the frame and grid parameters set from the arguments. -/
theorem collisionMap_constructor_uniform_check (originTransform : PoseModel)
    (frame : String) (sizes : GridSizesModel)
    (defaultValue oobValue : CollisionCellModel) :
    (sizes.uniformCellSize = false →
      mkCollisionMap originTransform frame sizes defaultValue oobValue
        = .error (.invalidArgument
            "Collision map cannot have non-uniform cell sizes")) ∧
    (sizes.uniformCellSize = true →
      ∃ m, mkCollisionMap originTransform frame sizes defaultValue oobValue
          = .ok m ∧
        m.originTransform = originTransform ∧ m.frame = frame ∧
        m.sizes = some sizes ∧ m.defaultCell = defaultValue ∧
        m.oobCell = oobValue ∧ m.componentsValid = false) := by
  constructor
  · intro h; unfold mkCollisionMap; rw [h]; rfl
  · intro h; unfold mkCollisionMap; rw [h]
    exact ⟨_, rfl, rfl, rfl, rfl, rfl, rfl, rfl⟩

theorem collisionMap_constructor_uniform_check_witness :
    (GridSizesModel.uniformCellSize ⟨1, 2, 1, 1, 1, 1⟩ = false) ∧
    mkCollisionMap [] "scene" ⟨1, 2, 1, 1, 1, 1⟩ ⟨0, 0⟩ ⟨0, 0⟩
      = .error (.invalidArgument
          "Collision map cannot have non-uniform cell sizes") ∧
    (GridSizesModel.uniformCellSize ⟨1, 1, 1, 2, 3, 4⟩ = true) ∧
    (∃ m, mkCollisionMap [] "scene" ⟨1, 1, 1, 2, 3, 4⟩ ⟨0, 0⟩ ⟨0, 0⟩
        = .ok m ∧
      m.originTransform = [] ∧ m.frame = "scene" ∧
      m.sizes = some ⟨1, 1, 1, 2, 3, 4⟩ ∧ m.defaultCell = ⟨0, 0⟩ ∧
      m.oobCell = ⟨0, 0⟩ ∧ m.componentsValid = false) :=
  ⟨by decide,
   (collisionMap_constructor_uniform_check [] "scene" ⟨1, 2, 1, 1, 1, 1⟩
     ⟨0, 0⟩ ⟨0, 0⟩).1 (by decide),
   by decide,
   (collisionMap_constructor_uniform_check [] "scene" ⟨1, 1, 1, 2, 3, 4⟩
     ⟨0, 0⟩ ⟨0, 0⟩).2 (by decide)⟩

/-- C8: `MakeBestAvailablePointCloudVoxelizer` tries CUDA, then OpenCL, then
CPU, returns the first construction that does not fail, and fails with the
no-backend-available error exactly when all three constructions fail. -/
theorem makeBestAvailable_backend_order {Voxelizer : Type}
    (cudaCtor openclCtor cpuCtor : Except String Voxelizer) :
    (∀ v, cudaCtor = .ok v →
      MakeBestAvailablePointCloudVoxelizer cudaCtor openclCtor cpuCtor
        = .ok v) ∧
    (∀ e v, cudaCtor = .error e → openclCtor = .ok v →
      MakeBestAvailablePointCloudVoxelizer cudaCtor openclCtor cpuCtor
        = .ok v) ∧
    (∀ e1 e2 v, cudaCtor = .error e1 → openclCtor = .error e2 →
      cpuCtor = .ok v →
      MakeBestAvailablePointCloudVoxelizer cudaCtor openclCtor cpuCtor
        = .ok v) ∧
    (exceptOk (MakeBestAvailablePointCloudVoxelizer cudaCtor openclCtor
        cpuCtor)
      = (exceptOk cudaCtor || exceptOk openclCtor || exceptOk cpuCtor)) ∧
    (MakeBestAvailablePointCloudVoxelizer cudaCtor openclCtor cpuCtor
        = .error "No PointCloud Voxelizers available" ↔
      exceptOk cudaCtor = false ∧ exceptOk openclCtor = false ∧
        exceptOk cpuCtor = false) := by
  rcases cudaCtor with e1 | v1 <;> rcases openclCtor with e2 | v2 <;>
    rcases cpuCtor with e3 | v3 <;>
    simp [MakeBestAvailablePointCloudVoxelizer, exceptOk]

theorem makeBestAvailable_backend_order_witness :
    MakeBestAvailablePointCloudVoxelizer
        (Except.error "cuda failed" : Except String ℕ) (.ok 7)
        (.error "cpu failed")
      = .ok 7 :=
  (makeBestAvailable_backend_order (Except.error "cuda failed")
    (.ok 7) (.error "cpu failed")).2.1 "cuda failed" 7 rfl rfl

/-- C6: a step size multiplier outside (0, 1] makes `VoxelizePointClouds`
throw `std::invalid_argument` before any device operation (no raycasting, no
tracking or output grid is touched); every multiplier in (0, 1] passes the
step-size guard. -/
theorem openclVoxelize_step_size_guard (dev : DeviceInterfaceModel)
    (staticEnvironment : CollisionMapModel) (stepSizeMultiplier : ℚ)
    (filterOptions : FilterOptionsModel)
    (pointclouds : List PointCloudModel) :
    (stepSizeMultiplier ≤ 0 ∨ 1 < stepSizeMultiplier →
      (openclVoxelizePointClouds dev staticEnvironment stepSizeMultiplier
        filterOptions pointclouds).deviceLog = [] ∧
      ∃ msg, (openclVoxelizePointClouds dev staticEnvironment
          stepSizeMultiplier filterOptions pointclouds).result
        = .error (.invalidArgument msg)) ∧
    (0 < stepSizeMultiplier → stepSizeMultiplier ≤ 1 →
      stepSizeMultiplierInvalid stepSizeMultiplier = false) := by
  constructor
  · intro h
    have hbad : stepSizeMultiplierInvalid stepSizeMultiplier = true := by
      rcases h with h | h <;> simp [stepSizeMultiplierInvalid, h]
    unfold openclVoxelizePointClouds
    rcases hs : staticEnvironment.sizes with _ | s
    · exact ⟨rfl, ⟨"!static_environment.IsInitialized()", rfl⟩⟩
    · rw [hbad]
      exact ⟨rfl, ⟨"step_size_multiplier is not in (0, 1]", rfl⟩⟩
  · intro h1 h2
    simp only [stepSizeMultiplierInvalid, Bool.or_eq_false_iff,
      decide_eq_false_iff_not, not_lt, not_le]
    exact ⟨h2, h1⟩

theorem openclVoxelize_step_size_guard_witness :
    ((-1 : ℚ) ≤ 0 ∨ 1 < (-1 : ℚ)) ∧
    ((openclVoxelizePointClouds demoDevice demoEnvironment (-1)
        demoFilterOptions []).deviceLog = [] ∧
      ∃ msg, (openclVoxelizePointClouds demoDevice demoEnvironment (-1)
          demoFilterOptions []).result = .error (.invalidArgument msg)) ∧
    (0 : ℚ) < 1 ∧ (1 : ℚ) ≤ 1 ∧ stepSizeMultiplierInvalid 1 = false :=
  ⟨Or.inl (by norm_num),
   (openclVoxelize_step_size_guard demoDevice demoEnvironment (-1)
     demoFilterOptions []).1 (Or.inl (by norm_num)),
   by norm_num, le_refl 1,
   (openclVoxelize_step_size_guard demoDevice demoEnvironment 1
     demoFilterOptions []).2 (by norm_num) (le_refl 1)⟩

theorem openclVoxelize_staticEnvAfter (dev : DeviceInterfaceModel)
    (staticEnvironment : CollisionMapModel) (stepSizeMultiplier : ℚ)
    (filterOptions : FilterOptionsModel)
    (pointclouds : List PointCloudModel) :
    (openclVoxelizePointClouds dev staticEnvironment stepSizeMultiplier
      filterOptions pointclouds).staticEnvironmentAfter
      = staticEnvironment := by
  unfold openclVoxelizePointClouds
  rcases staticEnvironment.sizes with _ | s
  · rfl
  · by_cases hstep : stepSizeMultiplierInvalid stepSizeMultiplier = true <;>
      simp only [hstep, if_true, if_false, Bool.false_eq_true] <;>
    first
    | rfl
    | (by_cases havail : dev.isAvailable = true <;>
        simp only [havail, if_true, if_false, Bool.false_eq_true] <;>
       first
       | rfl
       | (split <;>
          first
          | rfl
          | (by_cases hfg : dev.prepareFilterGridOk = true <;>
             simp only [hfg, if_true, if_false, Bool.false_eq_true] <;> rfl)))

/-- C5: whenever `OpenCLPointCloudVoxelizer::VoxelizePointClouds` succeeds,
the returned map keeps the static environment's grid sizes, origin transform
and frame; the static environment itself is unchanged; and the returned map's
connected components are invalid, so `GetNumConnectedComponents` on it is
empty. -/
theorem openclVoxelize_output_shape (dev : DeviceInterfaceModel)
    (staticEnvironment : CollisionMapModel) (stepSizeMultiplier : ℚ)
    (filterOptions : FilterOptionsModel)
    (pointclouds : List PointCloudModel) (out : CollisionMapModel)
    (h : (openclVoxelizePointClouds dev staticEnvironment stepSizeMultiplier
      filterOptions pointclouds).result = .ok out) :
    out.sizes = staticEnvironment.sizes ∧
    out.originTransform = staticEnvironment.originTransform ∧
    out.frame = staticEnvironment.frame ∧
    (openclVoxelizePointClouds dev staticEnvironment stepSizeMultiplier
      filterOptions pointclouds).staticEnvironmentAfter
      = staticEnvironment ∧
    out.componentsValid = false ∧
    out.numConnectedComponents = none := by
  have henv := openclVoxelize_staticEnvAfter dev staticEnvironment
    stepSizeMultiplier filterOptions pointclouds
  unfold openclVoxelizePointClouds at h
  rcases hs : staticEnvironment.sizes with _ | s
  · rw [hs] at h; simp at h
  · rw [hs] at h
    by_cases hstep : stepSizeMultiplierInvalid stepSizeMultiplier = true
    · rw [hstep] at h; simp at h
    · rw [Bool.not_eq_true] at hstep
      rw [hstep] at h
      simp only [Bool.false_eq_true, if_false] at h
      by_cases havail : dev.isAvailable = true
      · rw [havail] at h
        simp only [if_true] at h
        by_cases hoff : (dev.prepareTrackingGrids s.totalCells
            pointclouds.length).length = pointclouds.length
        · rw [if_neg (by simp [hoff])] at h
          by_cases hfg : dev.prepareFilterGridOk = true
          · rw [hfg] at h
            simp only [if_true] at h
            injection h with h
            subst h
            exact ⟨rfl, rfl, rfl, henv, rfl, by
              simp [CollisionMapModel.numConnectedComponents]⟩
          · rw [Bool.not_eq_true] at hfg
            rw [hfg] at h
            simp at h
        · rw [if_pos (by simp [hoff])] at h
          simp at h
      · rw [Bool.not_eq_true] at havail
        rw [havail] at h
        simp at h

theorem openclVoxelize_output_shape_witness :
    (openclVoxelizePointClouds demoDevice demoEnvironment 1
        demoFilterOptions []).result = .ok demoFilteredGrid ∧
    (demoFilteredGrid.sizes = demoEnvironment.sizes ∧
      demoFilteredGrid.originTransform = demoEnvironment.originTransform ∧
      demoFilteredGrid.frame = demoEnvironment.frame ∧
      (openclVoxelizePointClouds demoDevice demoEnvironment 1
        demoFilterOptions []).staticEnvironmentAfter = demoEnvironment ∧
      demoFilteredGrid.componentsValid = false ∧
      demoFilteredGrid.numConnectedComponents = none) := by
  have hres : (openclVoxelizePointClouds demoDevice demoEnvironment 1
      demoFilterOptions []).result = .ok demoFilteredGrid := by
    norm_num [openclVoxelizePointClouds, stepSizeMultiplierInvalid,
      demoDevice, demoEnvironment, demoFilteredGrid]
  exact ⟨hres, openclVoxelize_output_shape demoDevice demoEnvironment 1
    demoFilterOptions [] demoFilteredGrid hres⟩

/-- C2 (divergence witness): with component 1 and a component map whose only
non-component-1 voxel is the `+z` face neighbor (0,0,1) of the surface voxel
(0,0,0), the source's vertex extraction collects no vertex at all — in
particular not the (-,-,+) corner (0,0,1) — because it queries the `-z`
neighbor in place of the `+z` neighbor (`topology_computation.hpp` lines
420-423), while the spec's corner rule marks that corner as a surface
vertex. -/
theorem surfaceVertexExtraction_misqueries_plus_z :
    extractSurfaceVertices 1 plusZGet [⟨0, 0, 0⟩] = [] ∧
    specCornerIsSurfaceVertex 1 plusZGet ⟨0, 0, 0⟩ false false true ∧
    cornerVertex ⟨0, 0, 0⟩ false false true = ⟨0, 0, 1⟩ ∧
    plusZGet ⟨0, 0, 1⟩ ≠ 1 := by decide

/-- C3 (divergence witness): on a 1 x 1 x 1 grid with no connections,
`MarkConnectedComponent` marks one cell with the new component id but returns
0, because `marked_cells` (initialized at `topology_computation.hpp` line 84)
is never incremented; consequently the short-circuit
`marked_cells == total_cells` of `ComputeConnectedComponents` (line 177)
compares 0 with the total cell count and never fires on a nonempty grid. -/
theorem markConnectedComponent_count_not_returned :
    (MarkConnectedComponent noConn 2 (fun _ => 0) ⟨0, 0, 0⟩ 1).map
      (fun r => (countMarkedCells 1 1 1 r.1, r.2)) = some (1, 0) ∧
    (1 : ℤ) * 1 * 1 ≠ 0 := by decide

theorem edgeStraddles_as_decide (c a b d e : ℤ) :
    edgeStraddles c a b d e
      = decide ((a ≠ c ∨ b ≠ c ∨ d ≠ c ∨ e ≠ c) ∧
        (a = c ∨ b = c ∨ d = c ∨ e = c)) := by
  unfold edgeStraddles
  by_cases h1 : c = a <;> by_cases h2 : c = b <;> by_cases h3 : c = d <;>
    by_cases h4 : c = e <;>
    simp_all [eq_comm, ne_comm]

theorem edgeExposed_decide (c : ℤ) (get : GridIndex → ℤ)
    (w x y z : GridIndex) :
    decide (specEdgeExposed c get [w, x, y, z])
      = edgeStraddles c (get w) (get x) (get y) (get z) := by
  rw [edgeStraddles_as_decide]
  apply decide_eq_decide.mpr
  simp [specEdgeExposed]

theorem specExposedEdgeCount_eq (c : ℤ) (get : GridIndex → ℤ)
    (key : GridIndex) :
    specExposedEdgeCount c get key = (vertexEdgeInfo c get key).2 := by
  unfold specExposedEdgeCount edgeQuads
  simp only [List.filter_cons, List.filter_nil, edgeExposed_decide,
    vertexEdgeInfo]
  split_ifs <;> simp_all

theorem surfaceVertexPass_foldl (c : ℤ) (get : GridIndex → ℤ)
    (verts : List GridIndex) :
    ∀ (ms0 : ℤ × ℤ × ℤ) (cl0 : List (GridIndex × ℕ)),
    (verts.foldl (msPassStep c get) (ms0, cl0)).1
      = (ms0.1 + (verts.countP
            (fun v => decide ((vertexEdgeInfo c get v).2 = 3)) : ℤ),
         ms0.2.1 + (verts.countP
            (fun v => decide ((vertexEdgeInfo c get v).2 = 5)) : ℤ),
         ms0.2.2 + (verts.countP
            (fun v => decide ((vertexEdgeInfo c get v).2 = 6)) : ℤ)) := by
  induction verts with
  | nil => intro ms0 cl0; simp
  | cons v rest ih =>
    intro ms0 cl0
    rw [List.foldl_cons]
    have hstep : msPassStep c get (ms0, cl0) v
        = ((if (vertexEdgeInfo c get v).2 = 3 then (ms0.1 + 1, ms0.2.1, ms0.2.2)
            else if (vertexEdgeInfo c get v).2 = 5 then
              (ms0.1, ms0.2.1 + 1, ms0.2.2)
            else if (vertexEdgeInfo c get v).2 = 6 then
              (ms0.1, ms0.2.1, ms0.2.2 + 1)
            else ms0), cl0 ++ [(v, (vertexEdgeInfo c get v).1)]) := rfl
    rw [hstep]
    by_cases h3 : (vertexEdgeInfo c get v).2 = 3
    · rw [if_pos h3, ih]
      simp [Prod.ext_iff, List.countP_cons, h3]
      ring
    · by_cases h5 : (vertexEdgeInfo c get v).2 = 5
      · rw [if_neg h3, if_pos h5, ih]
        simp [Prod.ext_iff, List.countP_cons, h3, h5]
        ring
      · by_cases h6 : (vertexEdgeInfo c get v).2 = 6
        · rw [if_neg h3, if_neg h5, if_pos h6, ih]
          simp [Prod.ext_iff, List.countP_cons, h3, h5, h6]
          ring
        · rw [if_neg h3, if_neg h5, if_neg h6, ih]
          simp [Prod.ext_iff, List.countP_cons, h3, h5, h6]

theorem surfaceVertexPass_ms (c : ℤ) (get : GridIndex → ℤ)
    (verts : List GridIndex) :
    (surfaceVertexPass c get verts).1
      = (specVertexCountWithEdges c get verts 3,
         specVertexCountWithEdges c get verts 5,
         specVertexCountWithEdges c get verts 6) := by
  unfold surfaceVertexPass specVertexCountWithEdges
  rw [surfaceVertexPass_foldl]
  have hc : ∀ k : ℕ, verts.countP
        (fun v => decide (specExposedEdgeCount c get v = k))
      = verts.countP (fun v => decide ((vertexEdgeInfo c get v).2 = k)) := by
    intro k
    apply List.countP_congr
    intro v _
    simp [specExposedEdgeCount_eq]
  simp [hc]

/-- C4: for every surface on which `ComputeHolesAndVoidsInSurface` returns a
value, the returned void count is `G - 1`, where `G` is the surface-vertex
graph component count the BFS computes, and the returned hole count is the
raw Chen-Rong count `1 + (M5 + 2*M6 - M3) / 8` (truncating integer division)
plus the void count, where `M3`, `M5`, `M6` count the surface vertices with
exactly 3, 5, 6 exposed edges in the spec's sense. -/
theorem computeHolesAndVoids_chen_rong (fuel : ℕ) (component : ℤ)
    (surface : List GridIndex) (getComponent : GridIndex → ℤ)
    (G : ℤ) (r : NumberOfHolesAndVoids)
    (hG : ComputeConnectivityOfSurfaceVertices fuel
      (surfaceVertexPass component getComponent
        (extractSurfaceVertices component getComponent surface)).2 = some G)
    (hr : ComputeHolesAndVoidsInSurface fuel component surface getComponent
      = .ok r) :
    r.numVoids = G - 1 ∧
    r.numHoles = (1 + Int.tdiv
        (specVertexCountWithEdges component getComponent
           (extractSurfaceVertices component getComponent surface) 5
         + 2 * specVertexCountWithEdges component getComponent
           (extractSurfaceVertices component getComponent surface) 6
         - specVertexCountWithEdges component getComponent
           (extractSurfaceVertices component getComponent surface) 3) 8)
      + (G - 1) := by
  simp only [ComputeHolesAndVoidsInSurface, hG] at hr
  unfold mkNumberOfHolesAndVoids at hr
  split_ifs at hr
  injection hr with h
  subst h
  rw [surfaceVertexPass_ms]
  exact ⟨rfl, rfl⟩

theorem computeHolesAndVoids_chen_rong_witness :
    ComputeConnectivityOfSurfaceVertices 10
      (surfaceVertexPass 1 singleVoxelGet
        (extractSurfaceVertices 1 singleVoxelGet [⟨0, 0, 0⟩])).2
      = some 1 ∧
    ComputeHolesAndVoidsInSurface 10 1 [⟨0, 0, 0⟩] singleVoxelGet
      = .ok ⟨0, 0⟩ ∧
    (⟨0, 0⟩ : NumberOfHolesAndVoids).numVoids = 1 - 1 ∧
    (⟨0, 0⟩ : NumberOfHolesAndVoids).numHoles = (1 + Int.tdiv
        (specVertexCountWithEdges 1 singleVoxelGet
           (extractSurfaceVertices 1 singleVoxelGet [⟨0, 0, 0⟩]) 5
         + 2 * specVertexCountWithEdges 1 singleVoxelGet
           (extractSurfaceVertices 1 singleVoxelGet [⟨0, 0, 0⟩]) 6
         - specVertexCountWithEdges 1 singleVoxelGet
           (extractSurfaceVertices 1 singleVoxelGet [⟨0, 0, 0⟩]) 3) 8)
      + (1 - 1) :=
  ⟨by decide, by decide,
   computeHolesAndVoids_chen_rong 10 1 [⟨0, 0, 0⟩] singleVoxelGet 1 ⟨0, 0⟩
     (by decide) (by decide)⟩

theorem mem_neighborsOf_comm (a b : GridIndex) :
    a ∈ neighborsOf b ↔ b ∈ neighborsOf a := by
  rcases a with ⟨ax, ay, az⟩; rcases b with ⟨bx, b2, b3⟩
  simp only [neighborsOf, List.mem_cons, List.not_mem_nil, or_false,
    GridIndex.mk.injEq]
  constructor <;>
    (rintro (⟨h1, h2, h3⟩ | ⟨h1, h2, h3⟩ | ⟨h1, h2, h3⟩ | ⟨h1, h2, h3⟩ |
       ⟨h1, h2, h3⟩ | ⟨h1, h2, h3⟩) <;> omega)

theorem edge_symm {areConnected : GridIndex → GridIndex → Bool}
    (hsym : ∀ a b, areConnected a b = areConnected b a)
    {a b : GridIndex} (h : Edge areConnected a b) : Edge areConnected b a := by
  refine ⟨(mem_neighborsOf_comm a b).mpr h.1, ?_⟩
  rw [hsym b a]; exact h.2

theorem conn_symm {areConnected : GridIndex → GridIndex → Bool}
    (hsym : ∀ a b, areConnected a b = areConnected b a)
    {a b : GridIndex} (h : Conn areConnected a b) : Conn areConnected b a := by
  induction h with
  | refl => exact Relation.ReflTransGen.refl
  | tail _ hlast ih =>
    exact Relation.ReflTransGen.head (edge_symm hsym hlast) ih

theorem conn_target_inBounds {nx ny nz : ℕ}
    {areConnected : GridIndex → GridIndex → Bool}
    (hconf : ∀ a b, areConnected a b = true →
      inBounds nx ny nz a ∧ inBounds nx ny nz b)
    {a b : GridIndex} (h : Conn areConnected a b) :
    a = b ∨ inBounds nx ny nz b := by
  induction h with
  | refl => exact Or.inl rfl
  | tail _ hlast _ => exact Or.inr (hconf _ _ hlast.2).2

theorem mem_sweepIndices (nx ny nz : ℕ) (i : GridIndex) :
    i ∈ sweepIndices nx ny nz ↔ inBounds nx ny nz i := by
  rcases i with ⟨ix, iy, iz⟩
  unfold sweepIndices
  dsimp only [inBounds]
  constructor
  · intro hmem
    rw [List.mem_flatMap] at hmem
    obtain ⟨xi, hxi, hmem⟩ := hmem
    rw [List.mem_flatMap] at hmem
    obtain ⟨yi, hyi, hmem⟩ := hmem
    rw [List.mem_map] at hmem
    obtain ⟨zi, hzi, heq⟩ := hmem
    rw [List.mem_range] at hxi hyi hzi
    rw [GridIndex.mk.injEq] at heq
    obtain ⟨e1, e2, e3⟩ := heq
    refine ⟨?_, ?_, ?_, ?_, ?_, ?_⟩ <;> simp only [Int.ofNat_eq_coe] at e1 e2 e3 <;> omega
  · rintro ⟨h1, h2, h3, h4, h5, h6⟩
    rw [List.mem_flatMap]
    refine ⟨ix.toNat, List.mem_range.mpr (by omega), ?_⟩
    rw [List.mem_flatMap]
    refine ⟨iy.toNat, List.mem_range.mpr (by omega), ?_⟩
    rw [List.mem_map]
    refine ⟨iz.toNat, List.mem_range.mpr (by omega), ?_⟩
    rw [GridIndex.mk.injEq]
    refine ⟨?_, ?_, ?_⟩ <;> simp only [Int.ofNat_eq_coe] <;> omega

theorem mem_inBoundsFinset (nx ny nz : ℕ) (i : GridIndex) :
    i ∈ inBoundsFinset nx ny nz ↔ inBounds nx ny nz i := by
  rw [inBoundsFinset, List.mem_toFinset, mem_sweepIndices]

theorem sum_map_length_const {α β : Type} (l : List α) (n : ℕ)
    (f : α → List β) (h : ∀ a ∈ l, (f a).length = n) :
    (l.map (List.length ∘ f)).sum = l.length * n := by
  induction l with
  | nil => simp
  | cons a rest ih =>
    simp only [List.map_cons, List.sum_cons, Function.comp, List.length_cons]
    rw [h a (by simp), ih (fun a ha => h a (by simp [ha]))]
    ring

theorem length_sweepIndices (nx ny nz : ℕ) :
    (sweepIndices nx ny nz).length = nx * ny * nz := by
  unfold sweepIndices
  rw [List.length_flatMap, sum_map_length_const _ (ny * nz) _ ?_]
  · rw [List.length_range, mul_assoc]
  · intro xi _
    rw [List.length_flatMap, sum_map_length_const _ nz _ ?_]
    · rw [List.length_range]
    · intro yi _
      rw [List.length_map, List.length_range]

theorem card_inBoundsFinset_le (nx ny nz : ℕ) :
    (inBoundsFinset nx ny nz).card ≤ nx * ny * nz := by
  rw [inBoundsFinset]
  calc (sweepIndices nx ny nz).toFinset.card
      ≤ (sweepIndices nx ny nz).length := (sweepIndices nx ny nz).toFinset_card_le
    _ = nx * ny * nz := length_sweepIndices nx ny nz

theorem foldl_reset (l : List GridIndex) :
    ∀ (comp : GridIndex → ℕ) (j : GridIndex),
    (l.foldl (fun c i => fun j' => if j' = i then 0 else c j') comp) j
      = if j ∈ l then 0 else comp j := by
  induction l with
  | nil => intro comp j; simp
  | cons i rest ih =>
    intro comp j
    rw [List.foldl_cons, ih]
    by_cases hj : j ∈ rest
    · simp [hj]
    · by_cases hji : j = i <;> simp [hj, hji]

theorem resetComponents_apply (nx ny nz : ℕ) (comp : GridIndex → ℕ)
    (j : GridIndex) :
    resetComponents nx ny nz comp j
      = if inBounds nx ny nz j then 0 else comp j := by
  unfold resetComponents
  rw [foldl_reset]
  simp only [mem_sweepIndices]

theorem markFold_spec (areConnected : GridIndex → GridIndex → Bool)
    (comp' : GridIndex → ℕ) (cur : GridIndex) :
    ∀ (nbs : List GridIndex) (queued : GridIndex → Bool)
      (queue : List GridIndex),
    ∃ fresh : List GridIndex,
      (nbs.foldl (markStep areConnected comp' cur) (queued, queue)).2
        = queue ++ fresh ∧
      fresh.Nodup ∧
      (∀ j ∈ fresh, queued j = false) ∧
      (∀ j, (nbs.foldl (markStep areConnected comp' cur) (queued, queue)).1 j
          = true ↔ (queued j = true ∨ j ∈ fresh)) ∧
      (∀ j ∈ fresh, j ∈ nbs ∧ comp' j = 0 ∧ areConnected cur j = true) ∧
      (∀ j ∈ nbs, comp' j = 0 → areConnected cur j = true →
        (nbs.foldl (markStep areConnected comp' cur) (queued, queue)).1 j
          = true) := by
  intro nbs
  induction nbs with
  | nil =>
    intro queued queue
    exact ⟨[], by simp, List.nodup_nil, by simp, by simp, by simp, by simp⟩
  | cons nb rest ih =>
    intro queued queue
    rw [List.foldl_cons]
    by_cases h0 : comp' nb = 0
    · by_cases hc : areConnected cur nb = true
      · by_cases hq : queued nb = true
        · have hstep : markStep areConnected comp' cur (queued, queue) nb
              = (queued, queue) := by
            unfold markStep; rw [if_pos h0, if_pos hc]; simp [hq]
          rw [hstep]
          obtain ⟨fresh, ha, hb, hcc, hd, he, hf⟩ := ih queued queue
          refine ⟨fresh, ha, hb, hcc, hd, ?_, ?_⟩
          · intro j hj
            obtain ⟨h1, h2, h3⟩ := he j hj
            exact ⟨List.mem_cons_of_mem _ h1, h2, h3⟩
          · intro j hj hj0 hjc
            rcases List.mem_cons.mp hj with rfl | hjr
            · exact (hd j).mpr (Or.inl hq)
            · exact hf j hjr hj0 hjc
        · have hqf : queued nb = false := by
            cases hqv : queued nb
            · rfl
            · exact absurd hqv hq
          have hstep : markStep areConnected comp' cur (queued, queue) nb
              = (fun j => if j = nb then true else queued j,
                 queue ++ [nb]) := by
            unfold markStep; rw [if_pos h0, if_pos hc]; simp [hqf]
          rw [hstep]
          obtain ⟨fresh, ha, hb, hcc, hd, he, hf⟩ :=
            ih (fun j => if j = nb then true else queued j) (queue ++ [nb])
          have hnbmem : nb ∉ fresh := by
            intro hmem
            have := hcc nb hmem
            simp at this
          refine ⟨nb :: fresh, ?_, ?_, ?_, ?_, ?_, ?_⟩
          · rw [ha, List.append_assoc]
            rfl
          · exact List.nodup_cons.mpr ⟨hnbmem, hb⟩
          · intro j hj
            rcases List.mem_cons.mp hj with rfl | hjf
            · exact hqf
            · have hj' := hcc j hjf
              have hjnb : j ≠ nb := by
                intro hEq
                subst hEq
                exact hnbmem hjf
              simpa [hjnb] using hj'
          · intro j
            rw [hd j]
            constructor
            · rintro (hq' | hjf)
              · by_cases hjnb : j = nb
                · subst hjnb
                  exact Or.inr (by simp)
                · rw [if_neg hjnb] at hq'
                  exact Or.inl hq'
              · exact Or.inr (List.mem_cons_of_mem _ hjf)
            · rintro (hq' | hjf)
              · by_cases hjnb : j = nb
                · subst hjnb
                  left
                  simp
                · left
                  rw [if_neg hjnb]
                  exact hq'
              · rcases List.mem_cons.mp hjf with rfl | hjf'
                · left
                  simp
                · right
                  exact hjf'
          · intro j hj
            rcases List.mem_cons.mp hj with rfl | hjf
            · exact ⟨by simp, h0, hc⟩
            · obtain ⟨h1, h2, h3⟩ := he j hjf
              exact ⟨List.mem_cons_of_mem _ h1, h2, h3⟩
          · intro j hj hj0 hjc
            rcases List.mem_cons.mp hj with rfl | hjr
            · exact (hd j).mpr (Or.inl (by simp))
            · exact hf j hjr hj0 hjc
      · have hstep : markStep areConnected comp' cur (queued, queue) nb
            = (queued, queue) := by
          unfold markStep; rw [if_pos h0]; simp [hc]
        rw [hstep]
        obtain ⟨fresh, ha, hb, hcc, hd, he, hf⟩ := ih queued queue
        refine ⟨fresh, ha, hb, hcc, hd, ?_, ?_⟩
        · intro j hj
          obtain ⟨h1, h2, h3⟩ := he j hj
          exact ⟨List.mem_cons_of_mem _ h1, h2, h3⟩
        · intro j hj hj0 hjc
          rcases List.mem_cons.mp hj with rfl | hjr
          · exact absurd hjc hc
          · exact hf j hjr hj0 hjc
    · have hstep : markStep areConnected comp' cur (queued, queue) nb
          = (queued, queue) := by
        unfold markStep; rw [if_neg h0]
      rw [hstep]
      obtain ⟨fresh, ha, hb, hcc, hd, he, hf⟩ := ih queued queue
      refine ⟨fresh, ha, hb, hcc, hd, ?_, ?_⟩
      · intro j hj
        obtain ⟨h1, h2, h3⟩ := he j hj
        exact ⟨List.mem_cons_of_mem _ h1, h2, h3⟩
      · intro j hj hj0 hjc
        rcases List.mem_cons.mp hj with rfl | hjr
        · exact absurd hj0 h0
        · exact hf j hjr hj0 hjc

theorem markLoop_correct (areConnected : GridIndex → GridIndex → Bool)
    (k : ℕ) (hk : k ≠ 0) (base : GridIndex → ℕ) (s : GridIndex)
    (B : Finset GridIndex)
    (hB : ∀ a b, Edge areConnected a b → b ∈ B) :
    ∀ (fuel : ℕ) (queue : List GridIndex) (queued : GridIndex → Bool)
      (P : Finset GridIndex),
    (∀ j, queued j = true ↔ (j ∈ P ∨ j ∈ queue)) →
    (∀ j ∈ P, Reaches areConnected base s j) →
    (∀ j ∈ queue, Reaches areConnected base s j) →
    (∀ i ∈ P, ∀ nb, Edge areConnected i nb → base nb = 0 →
      queued nb = true) →
    queue.Nodup →
    (∀ j ∈ queue, j ∉ P) →
    queued s = true →
    (∀ j, queued j = true → j ∈ B) →
    B.card - (B.filter (fun j => queued j = true)).card + queue.length
      < fuel →
    ∃ Pf : Finset GridIndex,
      markLoop areConnected k fuel queue queued
          (fun j => if j ∈ P then k else base j)
        = some (fun j => if j ∈ Pf then k else base j, 0) ∧
      (∀ j, j ∈ Pf ↔ Reaches areConnected base s j) := by
  intro fuel
  induction fuel with
  | zero =>
    intro queue queued P _ _ _ _ _ _ _ _ hμ
    exact absurd hμ (Nat.not_lt_zero _)
  | succ fuel ih =>
    intro queue queued P hq hPreach hQreach hclose hnodup hdisj hqs hqB hμ
    match queue, hq, hQreach, hnodup, hdisj, hμ with
    | [], hq, hQreach, hnodup, hdisj, hμ =>
      refine ⟨P, rfl, ?_⟩
      intro j
      constructor
      · exact hPreach j
      · intro hr
        induction hr with
        | refl =>
          rcases (hq s).mp hqs with hP | habs
          · exact hP
          · exact absurd habs (List.not_mem_nil s)
        | tail hmid hstep ihm =>
          have hqj := hclose _ ihm _ hstep.1 hstep.2
          rcases (hq _).mp hqj with hP | habs
          · exact hP
          · exact absurd habs (List.not_mem_nil _)
    | cur :: rest, hq, hQreach, hnodup, hdisj, hμ =>
      have hcur_mem : cur ∈ cur :: rest := List.mem_cons_self cur rest
      have hcurP : cur ∉ P := hdisj cur hcur_mem
      have hcomp' : (fun j => if j = cur then k
            else if j ∈ P then k else base j)
          = (fun j => if j ∈ insert cur P then k else base j) := by
        funext j
        by_cases hjc : j = cur
        · subst hjc; simp
        · by_cases hjP : j ∈ P <;> simp [hjc, hjP]
      obtain ⟨fresh, ha, hb, hcc, hd, he, hf⟩ :=
        markFold_spec areConnected
          (fun j => if j ∈ insert cur P then k else base j) cur
          (neighborsOf cur) queued rest
      have hloop : markLoop areConnected k (fuel + 1) (cur :: rest) queued
            (fun j => if j ∈ P then k else base j)
          = markLoop areConnected k fuel
              ((neighborsOf cur).foldl
                (markStep areConnected
                  (fun j => if j ∈ insert cur P then k else base j) cur)
                (queued, rest)).2
              ((neighborsOf cur).foldl
                (markStep areConnected
                  (fun j => if j ∈ insert cur P then k else base j) cur)
                (queued, rest)).1
              (fun j => if j ∈ insert cur P then k else base j) := by
        simp only [markLoop]
        rw [hcomp']
      -- reachability of cur
      have hcur_reach : Reaches areConnected base s cur := hQreach cur hcur_mem
      -- properties of the new state
      have hfreshB : ∀ j ∈ fresh, j ∈ B := by
        intro j hj
        obtain ⟨h1, _, h3⟩ := he j hj
        exact hB cur j ⟨h1, h3⟩
      have hfresh_base : ∀ j ∈ fresh, j ∉ insert cur P ∧ base j = 0 := by
        intro j hj
        obtain ⟨_, h2, _⟩ := he j hj
        by_cases hmem : j ∈ insert cur P
        · rw [if_pos hmem] at h2
          exact absurd h2 hk
        · rw [if_neg hmem] at h2
          exact ⟨hmem, h2⟩
      have hfresh_notqueued : ∀ j ∈ fresh, queued j = false := hcc
      have hq' : ∀ j, ((neighborsOf cur).foldl
            (markStep areConnected
              (fun j' => if j' ∈ insert cur P then k else base j') cur)
            (queued, rest)).1 j = true
          ↔ (j ∈ insert cur P ∨ j ∈ rest ++ fresh) := by
        intro j
        rw [hd j]
        rw [hq j]
        simp only [Finset.mem_insert, List.mem_cons, List.mem_append]
        constructor
        · rintro ((hP | (rfl | hrest)) | hfresh)
          · exact Or.inl (Or.inr hP)
          · exact Or.inl (Or.inl rfl)
          · exact Or.inr (Or.inl hrest)
          · exact Or.inr (Or.inr hfresh)
        · rintro ((rfl | hP) | (hrest | hfresh))
          · exact Or.inl (Or.inr (Or.inl rfl))
          · exact Or.inl (Or.inl hP)
          · exact Or.inl (Or.inr (Or.inr hrest))
          · exact Or.inr hfresh
      have hP' : ∀ j ∈ insert cur P, Reaches areConnected base s j := by
        intro j hj
        rcases Finset.mem_insert.mp hj with rfl | hP
        · exact hcur_reach
        · exact hPreach j hP
      have hQ' : ∀ j ∈ rest ++ fresh, Reaches areConnected base s j := by
        intro j hj
        rcases List.mem_append.mp hj with hrest | hfresh
        · exact hQreach j (List.mem_cons_of_mem _ hrest)
        · obtain ⟨h1, _, h3⟩ := he j hfresh
          exact Relation.ReflTransGen.tail hcur_reach
            ⟨⟨h1, h3⟩, (hfresh_base j hfresh).2⟩
      have hcl' : ∀ i ∈ insert cur P, ∀ nb, Edge areConnected i nb →
          base nb = 0 → ((neighborsOf cur).foldl
            (markStep areConnected
              (fun j' => if j' ∈ insert cur P then k else base j') cur)
            (queued, rest)).1 nb = true := by
        intro i hi nb hedge hbase
        rcases Finset.mem_insert.mp hi with hic | hP
        · rw [hic] at hedge
          by_cases hmem : nb ∈ insert cur P
          · have hqnb : queued nb = true := by
              rcases Finset.mem_insert.mp hmem with hnbc | hnbP
              · rw [hnbc]
                exact (hq cur).mpr (Or.inr hcur_mem)
              · exact (hq nb).mpr (Or.inl hnbP)
            exact (hd nb).mpr (Or.inl hqnb)
          · have h0 : (fun j => if j ∈ insert cur P then k else base j) nb
                = 0 := by
              simp only
              rw [if_neg hmem]
              exact hbase
            exact hf nb hedge.1 h0 hedge.2
        · have hqnb := hclose i hP nb hedge hbase
          exact (hd nb).mpr (Or.inl hqnb)
      have hnd' : (rest ++ fresh).Nodup := by
        have hrest_nodup : rest.Nodup := (List.nodup_cons.mp hnodup).2
        rw [List.nodup_append]
        refine ⟨hrest_nodup, hb, ?_⟩
        intro j hjrest hjfresh
        have h1 : queued j = true := (hq j).mpr
          (Or.inr (List.mem_cons_of_mem _ hjrest))
        have h2 : queued j = false := hcc j hjfresh
        rw [h1] at h2
        cases h2
      have hdj' : ∀ j ∈ rest ++ fresh, j ∉ insert cur P := by
        intro j hj
        rcases List.mem_append.mp hj with hrest | hfresh
        · intro hmem
          rcases Finset.mem_insert.mp hmem with rfl | hP
          · exact (List.nodup_cons.mp hnodup).1 hrest
          · exact hdisj j (List.mem_cons_of_mem _ hrest) hP
        · exact (hfresh_base j hfresh).1
      have hqs' : ((neighborsOf cur).foldl
            (markStep areConnected
              (fun j' => if j' ∈ insert cur P then k else base j') cur)
            (queued, rest)).1 s = true :=
        (hd s).mpr (Or.inl hqs)
      have hqB' : ∀ j, ((neighborsOf cur).foldl
            (markStep areConnected
              (fun j' => if j' ∈ insert cur P then k else base j') cur)
            (queued, rest)).1 j = true → j ∈ B := by
        intro j hj
        rcases (hd j).mp hj with hqj | hfresh
        · exact hqB j hqj
        · exact hfreshB j hfresh
      have hμ' : B.card - (B.filter (fun j => ((neighborsOf cur).foldl
            (markStep areConnected
              (fun j' => if j' ∈ insert cur P then k else base j') cur)
            (queued, rest)).1 j = true)).card + (rest ++ fresh).length
          < fuel := by
        have hfilter_eq : B.filter (fun j =>
              ((neighborsOf cur).foldl
                (markStep areConnected
                  (fun j' => if j' ∈ insert cur P then k else base j') cur)
                (queued, rest)).1 j = true)
            = B.filter (fun j => queued j = true) ∪ fresh.toFinset := by
          ext j
          simp only [Finset.mem_filter, Finset.mem_union, List.mem_toFinset]
          constructor
          · rintro ⟨hjB, hj⟩
            rcases (hd j).mp hj with h1 | h2
            · exact Or.inl ⟨hjB, h1⟩
            · exact Or.inr h2
          · rintro (⟨hjB, h1⟩ | h2)
            · exact ⟨hjB, (hd j).mpr (Or.inl h1)⟩
            · exact ⟨hfreshB j h2, (hd j).mpr (Or.inr h2)⟩
        have hdisj_sets : Disjoint (B.filter (fun j => queued j = true))
            fresh.toFinset := by
          rw [Finset.disjoint_right]
          intro j hjf hjq
          have h2 := hcc j (List.mem_toFinset.mp hjf)
          have h1 := (Finset.mem_filter.mp hjq).2
          rw [h1] at h2
          cases h2
        have hcard : (B.filter (fun j =>
              ((neighborsOf cur).foldl
                (markStep areConnected
                  (fun j' => if j' ∈ insert cur P then k else base j') cur)
                (queued, rest)).1 j = true)).card
            = (B.filter (fun j => queued j = true)).card + fresh.length := by
          rw [hfilter_eq, Finset.card_union_of_disjoint hdisj_sets,
            List.toFinset_card_of_nodup hb]
        have hsub2 : (B.filter (fun j => queued j = true)).card
            + fresh.length ≤ B.card := by
          rw [← hcard]
          exact Finset.card_le_card (Finset.filter_subset _ _)
        rw [hcard, List.length_append]
        have hlen : (cur :: rest).length = rest.length + 1 := rfl
        rw [hlen] at hμ
        omega
      obtain ⟨Pf, hres, hchar⟩ := ih (rest ++ fresh)
        ((neighborsOf cur).foldl
          (markStep areConnected
            (fun j => if j ∈ insert cur P then k else base j) cur)
          (queued, rest)).1
        (insert cur P) hq' hP' hQ' hcl' hnd' hdj' hqs' hqB' hμ'
      refine ⟨Pf, ?_, hchar⟩
      rw [hloop, ha]
      exact hres

theorem MarkConnectedComponent_correct
    (areConnected : GridIndex → GridIndex → Bool) (k : ℕ) (hk : k ≠ 0)
    (base : GridIndex → ℕ) (s : GridIndex) (B : Finset GridIndex)
    (hB : ∀ a b, Edge areConnected a b → b ∈ B) (hsB : s ∈ B)
    (fuel : ℕ) (hfuel : B.card < fuel) :
    ∃ Pf : Finset GridIndex,
      MarkConnectedComponent areConnected fuel base s k
        = some (fun j => if j ∈ Pf then k else base j, 0) ∧
      (∀ j, j ∈ Pf ↔ Reaches areConnected base s j) := by
  have hbase_eq : base = fun j => if j ∈ (∅ : Finset GridIndex) then k
      else base j := by
    funext j; simp
  unfold MarkConnectedComponent
  rw [hbase_eq]
  refine markLoop_correct areConnected k hk base s B hB fuel
    [s] (fun j => decide (j = s)) ∅ ?_ ?_ ?_ ?_ ?_ ?_ ?_ ?_ ?_
  · intro j
    simp
  · intro j hj
    exact absurd hj (Finset.not_mem_empty j)
  · intro j hj
    rcases List.mem_cons.mp hj with rfl | habs
    · exact Relation.ReflTransGen.refl
    · exact absurd habs (List.not_mem_nil j)
  · intro i hi
    exact absurd hi (Finset.not_mem_empty i)
  · exact List.nodup_singleton s
  · intro j _
    exact Finset.not_mem_empty j
  · simp
  · intro j hj
    have : j = s := by simpa using hj
    rw [this]
    exact hsB
  · have hfilter : B.filter (fun j => decide (j = s) = true) = {s} := by
      ext j
      simp only [Finset.mem_filter, Finset.mem_singleton, decide_eq_true_eq]
      constructor
      · rintro ⟨_, h⟩; exact h
      · rintro rfl; exact ⟨hsB, rfl⟩
    rw [hfilter]
    simp only [Finset.card_singleton, List.length_singleton]
    have hpos : 1 ≤ B.card := Finset.card_pos.mpr ⟨s, hsB⟩
    omega

theorem reaches_iff_conn (areConnected : GridIndex → GridIndex → Bool)
    (base : GridIndex → ℕ) (s : GridIndex)
    (hs0 : ∀ j, Conn areConnected s j → base j = 0) (j : GridIndex) :
    Reaches areConnected base s j ↔ Conn areConnected s j := by
  constructor
  · intro h
    induction h with
    | refl => exact Relation.ReflTransGen.refl
    | tail _ hstep ihr => exact Relation.ReflTransGen.tail ihr hstep.1
  · intro h
    induction h with
    | refl => exact Relation.ReflTransGen.refl
    | tail hmid hlast ihr =>
      exact Relation.ReflTransGen.tail ihr
        ⟨hlast, hs0 _ (Relation.ReflTransGen.tail hmid hlast)⟩

theorem sweepLoop_correct (nx ny nz : ℕ)
    (areConnected : GridIndex → GridIndex → Bool)
    (hsym : ∀ a b, areConnected a b = areConnected b a)
    (hconf : ∀ a b, areConnected a b = true →
      inBounds nx ny nz a ∧ inBounds nx ny nz b)
    (fuel : ℕ) (hfuel : nx * ny * nz < fuel) :
    ∀ (rest : List GridIndex) (comp : GridIndex → ℕ) (cc : ℕ)
      (root : ℕ → GridIndex),
    (∀ i ∈ rest, inBounds nx ny nz i) →
    (∀ j, inBounds nx ny nz j → comp j ≤ cc) →
    (∀ m, 1 ≤ m → m ≤ cc → inBounds nx ny nz (root m) ∧
      comp (root m) = m ∧
      (∀ j, inBounds nx ny nz j →
        (comp j = m ↔ Conn areConnected (root m) j))) →
    (∀ j, inBounds nx ny nz j → comp j = 0 → j ∈ rest) →
    ∃ (compF : GridIndex → ℕ) (ccF : ℕ) (rootF : ℕ → GridIndex),
      sweepLoop areConnected fuel ((nx : ℤ) * (ny : ℤ) * (nz : ℤ))
          rest comp 0 cc
        = some (compF, ccF) ∧
      cc ≤ ccF ∧
      (∀ j, inBounds nx ny nz j → 1 ≤ compF j ∧ compF j ≤ ccF) ∧
      (∀ m, 1 ≤ m → m ≤ ccF → inBounds nx ny nz (rootF m) ∧
        compF (rootF m) = m ∧
        (∀ j, inBounds nx ny nz j →
          (compF j = m ↔ Conn areConnected (rootF m) j))) := by
  intro rest
  induction rest with
  | nil =>
    intro comp cc root hin hle hroot hrem
    refine ⟨comp, cc, root, rfl, le_refl cc, ?_, hroot⟩
    intro j hj
    have h0 : comp j ≠ 0 := fun h =>
      absurd (hrem j hj h) (List.not_mem_nil j)
    exact ⟨Nat.one_le_iff_ne_zero.mpr h0, hle j hj⟩
  | cons cur rest ih =>
    intro comp cc root hin hle hroot hrem
    have hcur_in : inBounds nx ny nz cur :=
      hin cur (List.mem_cons_self cur rest)
    have htot : ((nx : ℤ) * (ny : ℤ) * (nz : ℤ)) ≠ 0 := by
      obtain ⟨h1, h2, h3, h4, h5, h6⟩ := hcur_in
      have hx : (0 : ℤ) < nx := lt_of_le_of_lt h1 h2
      have hy : (0 : ℤ) < ny := lt_of_le_of_lt h3 h4
      have hz : (0 : ℤ) < nz := lt_of_le_of_lt h5 h6
      exact ne_of_gt (mul_pos (mul_pos hx hy) hz)
    by_cases hcur : comp cur = 0
    · have hclass0 : ∀ j, Conn areConnected cur j → comp j = 0 := by
        intro j hconn
        by_contra h0
        have hjin : inBounds nx ny nz j := by
          rcases conn_target_inBounds hconf hconn with hEq | hin'
          · rw [← hEq]
            exact hcur_in
          · exact hin'
        have hm1 : 1 ≤ comp j := Nat.one_le_iff_ne_zero.mpr h0
        have hm2 : comp j ≤ cc := hle j hjin
        obtain ⟨hrin, hrcomp, hriff⟩ := hroot (comp j) hm1 hm2
        have hconn_rj : Conn areConnected (root (comp j)) j :=
          (hriff j hjin).mp rfl
        have hconn_rcur : Conn areConnected (root (comp j)) cur :=
          Relation.ReflTransGen.trans hconn_rj (conn_symm hsym hconn)
        have hcontra : comp cur = comp j := (hriff cur hcur_in).mpr hconn_rcur
        rw [hcur] at hcontra
        exact h0 hcontra.symm
      obtain ⟨Pf, heq, hPf⟩ := MarkConnectedComponent_correct areConnected
        (cc + 1) (Nat.succ_ne_zero cc) comp cur (inBoundsFinset nx ny nz)
        (fun a b hedge => (mem_inBoundsFinset nx ny nz b).mpr
          (hconf a b hedge.2).2)
        ((mem_inBoundsFinset nx ny nz cur).mpr hcur_in)
        fuel (lt_of_le_of_lt (card_inBoundsFinset_le nx ny nz) hfuel)
      have hPf_conn : ∀ j, j ∈ Pf ↔ Conn areConnected cur j := by
        intro j
        rw [hPf j, reaches_iff_conn areConnected comp cur hclass0]
      have hcurPf : cur ∈ Pf :=
        (hPf_conn cur).mpr Relation.ReflTransGen.refl
      -- hypotheses for the tail
      have hin' : ∀ i ∈ rest, inBounds nx ny nz i := fun i hi =>
        hin i (List.mem_cons_of_mem _ hi)
      have hle' : ∀ j, inBounds nx ny nz j →
          (fun j' => if j' ∈ Pf then cc + 1 else comp j') j ≤ cc + 1 := by
        intro j hj
        simp only
        by_cases hjp : j ∈ Pf
        · rw [if_pos hjp]
        · rw [if_neg hjp]
          exact Nat.le_succ_of_le (hle j hj)
      have hroot' : ∀ m, 1 ≤ m → m ≤ cc + 1 →
          inBounds nx ny nz
            ((fun m' => if m' = cc + 1 then cur else root m') m) ∧
          (fun j' => if j' ∈ Pf then cc + 1 else comp j')
            ((fun m' => if m' = cc + 1 then cur else root m') m) = m ∧
          (∀ j, inBounds nx ny nz j →
            ((fun j' => if j' ∈ Pf then cc + 1 else comp j') j = m ↔
              Conn areConnected
                ((fun m' => if m' = cc + 1 then cur else root m') m) j)) := by
        intro m hm1 hm2
        simp only
        by_cases hmcc : m = cc + 1
        · rw [if_pos hmcc, if_pos hcurPf, hmcc]
          refine ⟨hcur_in, rfl, ?_⟩
          intro j hj
          by_cases hjp : j ∈ Pf
          · rw [if_pos hjp]
            exact ⟨fun _ => (hPf_conn j).mp hjp, fun _ => rfl⟩
          · rw [if_neg hjp]
            constructor
            · intro hcj
              exact absurd hcj (Nat.ne_of_lt (Nat.lt_succ_of_le (hle j hj)))
            · intro hconn
              exact absurd ((hPf_conn j).mpr hconn) hjp
        · have hmcc' : m ≤ cc := by omega
          obtain ⟨hrin, hrcomp, hriff⟩ := hroot m hm1 hmcc'
          have hrnotPf : root m ∉ Pf := by
            intro hmem
            have h0 := hclass0 (root m) ((hPf_conn (root m)).mp hmem)
            rw [hrcomp] at h0
            omega
          rw [if_neg hmcc, if_neg hrnotPf]
          refine ⟨hrin, hrcomp, ?_⟩
          intro j hj
          by_cases hjp : j ∈ Pf
          · rw [if_pos hjp]
            constructor
            · intro hcj
              omega
            · intro hconn
              have h0 := hclass0 j ((hPf_conn j).mp hjp)
              have := (hriff j hj).mpr hconn
              omega
          · rw [if_neg hjp]
            exact hriff j hj
      have hrem' : ∀ j, inBounds nx ny nz j →
          (fun j' => if j' ∈ Pf then cc + 1 else comp j') j = 0 →
          j ∈ rest := by
        intro j hj h0
        simp only at h0
        by_cases hjp : j ∈ Pf
        · rw [if_pos hjp] at h0
          omega
        · rw [if_neg hjp] at h0
          rcases List.mem_cons.mp (hrem j hj h0) with hEq | hmem
          · rw [hEq] at hjp
            exact absurd hcurPf hjp
          · exact hmem
      obtain ⟨compF, ccF, rootF, hseq, hccle, hF1, hF2⟩ :=
        ih (fun j' => if j' ∈ Pf then cc + 1 else comp j') (cc + 1)
          (fun m' => if m' = cc + 1 then cur else root m')
          hin' hle' hroot' hrem'
      refine ⟨compF, ccF, rootF, ?_, le_trans (Nat.le_succ cc) hccle,
        hF1, hF2⟩
      rw [sweepLoop, if_pos hcur]
      simp only [heq, zero_add]
      rw [if_neg (fun habs => htot habs.symm)]
      exact hseq
    · have hin' : ∀ i ∈ rest, inBounds nx ny nz i := fun i hi =>
        hin i (List.mem_cons_of_mem _ hi)
      have hrem' : ∀ j, inBounds nx ny nz j → comp j = 0 → j ∈ rest := by
        intro j hj h0
        rcases List.mem_cons.mp (hrem j hj h0) with hEq | hmem
        · rw [hEq] at h0
          exact absurd h0 hcur
        · exact hmem
      obtain ⟨compF, ccF, rootF, hseq, hccle, hF1, hF2⟩ :=
        ih comp cc root hin' hle hroot hrem'
      refine ⟨compF, ccF, rootF, ?_, hccle, hF1, hF2⟩
      rw [sweepLoop, if_neg hcur]
      exact hseq

/-- C1 (amended): for every grid, every symmetric connectivity predicate that
only ever links in-bounds cells, every initial component store, and enough
fuel, `ComputeConnectedComponents` returns a labelling in which two in-bounds
cells carry the same component id iff a face-connected path whose every edge
satisfies the predicate joins them, and the returned count `K` is exactly the
number of the resulting equivalence classes (there is a transversal of the
classes of cardinality `K`). -/
theorem ComputeConnectedComponents_correct (nx ny nz : ℕ)
    (areConnected : GridIndex → GridIndex → Bool) (comp0 : GridIndex → ℕ)
    (fuel : ℕ)
    (hsym : ∀ a b, areConnected a b = areConnected b a)
    (hconf : ∀ a b, areConnected a b = true →
      inBounds nx ny nz a ∧ inBounds nx ny nz b)
    (hfuel : nx * ny * nz < fuel) :
    ∃ (comp : GridIndex → ℕ) (K : ℕ),
      ComputeConnectedComponents nx ny nz areConnected comp0 fuel
        = some (comp, K) ∧
      (∀ a b, inBounds nx ny nz a → inBounds nx ny nz b →
        (comp a = comp b ↔ Conn areConnected a b)) ∧
      (∃ reps : Finset GridIndex,
        (∀ r ∈ reps, inBounds nx ny nz r) ∧
        (∀ a, inBounds nx ny nz a → ∃ r ∈ reps, Conn areConnected r a) ∧
        (∀ r1 ∈ reps, ∀ r2 ∈ reps, Conn areConnected r1 r2 → r1 = r2) ∧
        reps.card = K) := by
  unfold ComputeConnectedComponents
  obtain ⟨compF, ccF, rootF, hseq, _, hF1, hF2⟩ :=
    sweepLoop_correct nx ny nz areConnected hsym hconf fuel hfuel
      (sweepIndices nx ny nz) (resetComponents nx ny nz comp0) 0
      (fun _ => ⟨0, 0, 0⟩)
      (fun i hi => (mem_sweepIndices nx ny nz i).mp hi)
      (fun j hj => by rw [resetComponents_apply]; simp [hj])
      (fun m hm1 hm2 => absurd (le_trans hm1 hm2) (by omega))
      (fun j hj _ => (mem_sweepIndices nx ny nz j).mpr hj)
  refine ⟨compF, ccF, hseq, ?_, ?_⟩
  · intro a b ha hb
    constructor
    · intro hEq
      obtain ⟨h1a, h2a⟩ := hF1 a ha
      obtain ⟨hrin, hrcomp, hriff⟩ := hF2 (compF a) h1a h2a
      have hconn_ra : Conn areConnected (rootF (compF a)) a :=
        (hriff a ha).mp rfl
      have hconn_rb : Conn areConnected (rootF (compF a)) b :=
        (hriff b hb).mp hEq.symm
      exact Relation.ReflTransGen.trans (conn_symm hsym hconn_ra) hconn_rb
    · intro hconn
      obtain ⟨h1a, h2a⟩ := hF1 a ha
      obtain ⟨hrin, hrcomp, hriff⟩ := hF2 (compF a) h1a h2a
      have hconn_ra : Conn areConnected (rootF (compF a)) a :=
        (hriff a ha).mp rfl
      have hconn_rb : Conn areConnected (rootF (compF a)) b :=
        Relation.ReflTransGen.trans hconn_ra hconn
      exact ((hriff b hb).mpr hconn_rb).symm
  · refine ⟨(Finset.Icc 1 ccF).image rootF, ?_, ?_, ?_, ?_⟩
    · intro r hr
      obtain ⟨m, hm, hrEq⟩ := Finset.mem_image.mp hr
      obtain ⟨hm1, hm2⟩ := Finset.mem_Icc.mp hm
      rw [← hrEq]
      exact (hF2 m hm1 hm2).1
    · intro a ha
      obtain ⟨h1a, h2a⟩ := hF1 a ha
      refine ⟨rootF (compF a), Finset.mem_image.mpr
        ⟨compF a, Finset.mem_Icc.mpr ⟨h1a, h2a⟩, rfl⟩, ?_⟩
      exact ((hF2 (compF a) h1a h2a).2.2 a ha).mp rfl
    · intro r1 hr1 r2 hr2 hconn
      obtain ⟨m1, hm1, hr1eq⟩ := Finset.mem_image.mp hr1
      obtain ⟨m2, hm2, hr2eq⟩ := Finset.mem_image.mp hr2
      obtain ⟨hm11, hm12⟩ := Finset.mem_Icc.mp hm1
      obtain ⟨hm21, hm22⟩ := Finset.mem_Icc.mp hm2
      obtain ⟨hrin1, hrcomp1, hriff1⟩ := hF2 m1 hm11 hm12
      obtain ⟨hrin2, hrcomp2, hriff2⟩ := hF2 m2 hm21 hm22
      rw [← hr1eq, ← hr2eq] at hconn ⊢
      have h1 : compF (rootF m2) = m1 := (hriff1 (rootF m2) hrin2).mpr hconn
      rw [hrcomp2] at h1
      rw [h1]
    · have hinj : Set.InjOn rootF (Finset.Icc 1 ccF) := by
        intro m1 hm1 m2 hm2 hEq
        obtain ⟨hm11, hm12⟩ := Finset.mem_Icc.mp (Finset.mem_coe.mp hm1)
        obtain ⟨hm21, hm22⟩ := Finset.mem_Icc.mp (Finset.mem_coe.mp hm2)
        have h1 := (hF2 m1 hm11 hm12).2.1
        have h2 := (hF2 m2 hm21 hm22).2.1
        rw [hEq, h2] at h1
        exact h1.symm
      rw [Finset.card_image_of_injOn hinj, Nat.card_Icc]
      omega

theorem ComputeConnectedComponents_correct_witness :
    (∀ a b : GridIndex, noConn a b = noConn b a) ∧
    (∀ a b : GridIndex, noConn a b = true →
      inBounds 1 1 1 a ∧ inBounds 1 1 1 b) ∧
    1 * 1 * 1 < 2 ∧
    (∃ (comp : GridIndex → ℕ) (K : ℕ),
      ComputeConnectedComponents 1 1 1 noConn (fun _ => 0) 2
        = some (comp, K) ∧
      (∀ a b, inBounds 1 1 1 a → inBounds 1 1 1 b →
        (comp a = comp b ↔ Conn noConn a b)) ∧
      (∃ reps : Finset GridIndex,
        (∀ r ∈ reps, inBounds 1 1 1 r) ∧
        (∀ a, inBounds 1 1 1 a → ∃ r ∈ reps, Conn noConn r a) ∧
        (∀ r1 ∈ reps, ∀ r2 ∈ reps, Conn noConn r1 r2 → r1 = r2) ∧
        reps.card = K)) :=
  ⟨fun _ _ => rfl,
   fun a b h => absurd h (by simp [noConn]),
   by norm_num,
   ComputeConnectedComponents_correct 1 1 1 noConn (fun _ => 0) 2
     (fun _ _ => rfl) (fun a b h => absurd h (by simp [noConn]))
     (by norm_num)⟩

/-- C1 (counterexample to the unrestricted claim): the connectivity predicate
`cexAreConnected` is symmetric and links the in-bounds cells (0,0,0) and
(1,0,0) of a 2 x 1 x 1 grid through two out-of-bounds cells; with the pre-call
store `cexInit` (the out-of-bounds chain cells already hold the nonzero
component 5, which the reset phase does not clear), the labeller terminates
with component(0,0,0) = 1 ≠ 2 = component(1,0,0) and K = 2, although a
face-connected path whose every edge satisfies the predicate joins the two
cells (so they lie in one equivalence class, and the claim would require
equal ids and K to count one class for them). -/
theorem computeConnectedComponents_oob_counterexample :
    (∀ a b : GridIndex, cexAreConnected a b = cexAreConnected b a) ∧
    (ComputeConnectedComponents 2 1 1 cexAreConnected cexInit 5).map
      (fun r => (r.1 ⟨0, 0, 0⟩, r.1 ⟨1, 0, 0⟩, r.2)) = some (1, 2, 2) ∧
    Conn cexAreConnected ⟨0, 0, 0⟩ ⟨1, 0, 0⟩ := by
  refine ⟨?_, by decide, ?_⟩
  · intro a b
    unfold cexAreConnected
    apply decide_eq_decide.mpr
    tauto
  · have e1 : Edge cexAreConnected ⟨0, 0, 0⟩ ⟨0, -1, 0⟩ :=
      ⟨by decide, by decide⟩
    have e2 : Edge cexAreConnected ⟨0, -1, 0⟩ ⟨1, -1, 0⟩ :=
      ⟨by decide, by decide⟩
    have e3 : Edge cexAreConnected ⟨1, -1, 0⟩ ⟨1, 0, 0⟩ :=
      ⟨by decide, by decide⟩
    exact Relation.ReflTransGen.head e1
      (Relation.ReflTransGen.head e2 (Relation.ReflTransGen.single e3))
